import Mathlib

/-!
Verification of the CyberCheck log-analysis pipeline.

This file gives a shallow embedding of the core pipeline of the repository:
the Cloudflare One line parser and parser factory (`parseLine`,
`validateFormat`, `autoDetectParser`, `parseLogFile`,
`parseLogFileWithParser`), and the anomaly detection service
(`performStatisticalAnalysis`, `selectSampleEntries`, `parseAIResponse`,
`performAIAnalysis`, `generateTimeline`, `analyzeAnomalies`).

Modelling conventions:
* JavaScript values that flow through the pipeline are modelled by the
  inductive type `Json` (JSON values plus `nan` for `NaN` and `date` for
  `Date` wrappers).  JavaScript `null` and `undefined` are both modelled by
  `Json.null` where the distinction is unobservable, and by `Option` at
  record boundaries.
* JavaScript `Map` objects are modelled as insertion-ordered association
  lists (`mapGet` / `mapSet`); `Map.set` on an existing key keeps its
  position, a new key is appended, matching JS iteration order.
* JavaScript numbers are modelled as exact fractions (`JsNum`, interpreted
  in `ℚ` by `JsNum.toRat`).  All numeric literals appearing in the source
  (0.1, 0.05, 0.6, 0.85, ...) are exactly representable, and every
  threshold comparison in the source compares an integer count against
  such a literal times an integer, where double rounding cannot change the
  outcome for any realistic input size.
* `JSON.parse` is modelled by `jsonParse`, a fuel-based strict JSON parser
  (duplicate object keys keep the first position and the last value, as in
  JavaScript).
* The external model call of `performAIAnalysis` is abstracted by an
  `AIOutcome` argument: `AIOutcome.fail` models any exception from the call
  (network, timeout, auth, rate limit), `AIOutcome.ok content` models a
  reply with the given message content.
* Environment-dependent builtins with no bearing on any proved property are
  abstracted in `JsEnv`: `getHoursOf` models `new Date(ms).getHours()`
  (local-time hour), `urlHostname` models `new URL(u).hostname` with `none`
  for a thrown constructor error.  Wall-clock metadata (`parseDate`) is not
  modelled.
-/

namespace CyberCheck

/-- A JavaScript number, modelled as an exact unnormalized fraction
`num / den` (`den` is positive in every value this development builds).
Unnormalized fractions keep all arithmetic kernel-computable; `JsNum.toRat`
interprets a value in `ℚ` for the specification-level statements. -/
structure JsNum where
  num : Int
  den : Nat
deriving DecidableEq

/-- Interpretation of a `JsNum` as a rational number. -/
def JsNum.toRat (a : JsNum) : ℚ := (a.num : ℚ) / (a.den : ℚ)

/-- Fraction addition (denominators multiply, no normalization). -/
def JsNum.add (a b : JsNum) : JsNum :=
  ⟨a.num * (b.den : Int) + b.num * (a.den : Int), a.den * b.den⟩

/-- Fraction multiplication. -/
def JsNum.mul (a b : JsNum) : JsNum :=
  ⟨a.num * b.num, a.den * b.den⟩

/-- Fraction division; the divisor's sign moves to the numerator so the
denominator stays a natural number. -/
def JsNum.div (a b : JsNum) : JsNum :=
  ⟨a.num * (b.den : Int) * b.num.sign, a.den * b.num.natAbs⟩

/-- Strict comparison by cross-multiplication (valid for positive
denominators, which all values built here have). -/
def JsNum.blt (a b : JsNum) : Bool :=
  decide (a.num * (b.den : Int) < b.num * (a.den : Int))

/-- Non-strict comparison by cross-multiplication. -/
def JsNum.ble (a b : JsNum) : Bool :=
  decide (a.num * (b.den : Int) ≤ b.num * (a.den : Int))

/-- `Math.max` on two numbers. -/
def JsNum.max (a b : JsNum) : JsNum := if a.ble b then b else a

/-- `Math.min` on two numbers. -/
def JsNum.min (a b : JsNum) : JsNum := if a.ble b then a else b

/-- Model of a JavaScript value as it occurs in this pipeline: JSON values
plus `nan` (the result of a failed `parseInt`) and `date` (a `Date` object
wrapping the raw value it was constructed from). -/
inductive Json where
  | null : Json
  | bool : Bool → Json
  | num : JsNum → Json
  | nan : Json
  | str : String → Json
  | arr : List Json → Json
  | obj : List (String × Json) → Json
  | date : Json → Json

/-- `Map.prototype.get`: first binding of the key in the association list. -/
def mapGet {α β : Type} [DecidableEq α] (m : List (α × β)) (k : α) : Option β :=
  match m with
  | [] => none
  | (k1, v) :: rest => if k1 = k then some v else mapGet rest k

/-- `Map.prototype.set`: replace the binding in place when the key exists,
append it otherwise (JS `Map` iteration order). -/
def mapSet {α β : Type} [DecidableEq α] (m : List (α × β)) (k : α) (v : β) :
    List (α × β) :=
  match m with
  | [] => [(k, v)]
  | (k1, v1) :: rest => if k1 = k then (k, v) :: rest else (k1, v1) :: mapSet rest k v

/-- The `const c = map.get(k) || 0; map.set(k, c + 1)` idiom used for every
frequency table in `performStatisticalAnalysis`. -/
def bump {α : Type} [DecidableEq α] (m : List (α × Nat)) (k : α) : List (α × Nat) :=
  match m with
  | [] => [(k, 1)]
  | (k1, v) :: rest => if k1 = k then (k, v + 1) :: rest else (k1, v) :: bump rest k

/-! ### A strict JSON parser, modelling `JSON.parse` -/

/-- JSON whitespace. -/
def isJsonWs (c : Char) : Bool :=
  c = ' ' || c = '\t' || c = '\n' || c = '\r'

/-- Drop leading JSON whitespace. -/
def skipWs : List Char → List Char
  | [] => []
  | c :: cs => if isJsonWs c then skipWs cs else c :: cs

/-- Value of a hexadecimal digit, read off the character code: digits are
codes 48-57, lowercase a-f are 97-102, uppercase A-F are 65-70. -/
def hexVal (c : Char) : Option Nat :=
  let n := c.toNat
  if 48 ≤ n ∧ n ≤ 57 then some (n - 48)
  else if 97 ≤ n ∧ n ≤ 102 then some (n - 87)
  else if 65 ≤ n ∧ n ≤ 70 then some (n - 55)
  else none

/-- Body of a JSON string literal, after the opening quote.  Returns the
decoded string and the input following the closing quote. -/
def parseStringBody (acc : List Char) : List Char → Option (String × List Char)
  | [] => none
  | '\x22' :: rest => some (String.mk acc.reverse, rest)
  | '\\' :: e :: rest =>
    match e with
    | '\x22' => parseStringBody ('\x22' :: acc) rest
    | '\\' => parseStringBody ('\\' :: acc) rest
    | '/' => parseStringBody ('/' :: acc) rest
    | 'n' => parseStringBody ('\n' :: acc) rest
    | 't' => parseStringBody ('\t' :: acc) rest
    | 'r' => parseStringBody ('\r' :: acc) rest
    | 'b' => parseStringBody ('\x08' :: acc) rest
    | 'f' => parseStringBody ('\x0c' :: acc) rest
    | 'u' =>
      match rest with
      | h1 :: h2 :: h3 :: h4 :: rest4 =>
        match hexVal h1, hexVal h2, hexVal h3, hexVal h4 with
        | some a, some b, some c, some d =>
          parseStringBody (Char.ofNat (((a * 16 + b) * 16 + c) * 16 + d) :: acc) rest4
        | _, _, _, _ => none
      | _ => none
    | _ => none
  | c :: rest => if c.toNat < 32 then none else parseStringBody (c :: acc) rest

/-- Longest prefix of decimal digits. -/
def takeDigits : List Char → List Char × List Char
  | [] => ([], [])
  | c :: cs =>
    if c.isDigit then
      let p := takeDigits cs
      (c :: p.1, p.2)
    else ([], c :: cs)

/-- Numeric value of a digit list. -/
def natOfDigits (ds : List Char) : Nat :=
  ds.foldl (fun acc c => acc * 10 + (c.toNat - '0'.toNat)) 0

/-- Scaling factor `10 ^ e` as an exact fraction, for a signed exponent. -/
def pow10 (e : Int) : JsNum :=
  if 0 ≤ e then ⟨(10 ^ e.toNat : Nat), 1⟩ else ⟨1, 10 ^ (-e).toNat⟩

/-- Exponent part of a JSON number, after the `e`. -/
def parseExponent (cs : List Char) : Option (Int × List Char) :=
  let esign : Int × List Char :=
    match cs with
    | '-' :: rest => (-1, rest)
    | '+' :: rest => (1, rest)
    | _ => (1, cs)
  let ds := takeDigits esign.2
  match ds.1 with
  | [] => none
  | _ => some (esign.1 * (natOfDigits ds.1 : Int), ds.2)

/-- JSON number grammar: optional minus, integer part without leading
zeros, optional fraction, optional exponent. -/
def parseNumber (cs : List Char) : Option (JsNum × List Char) :=
  let sign : JsNum × List Char :=
    match cs with
    | '-' :: rest => (⟨-1, 1⟩, rest)
    | _ => (⟨1, 1⟩, cs)
  let intPart := takeDigits sign.2
  match intPart.1 with
  | [] => none
  | d :: ds =>
    if d = '0' && ds ≠ [] then none
    else
      let ival : JsNum := ⟨(natOfDigits (d :: ds) : Int), 1⟩
      let afterInt := intPart.2
      let fracStep : Option (JsNum × List Char) :=
        match afterInt with
        | '.' :: rest =>
          let fd := takeDigits rest
          match fd.1 with
          | [] => none
          | _ => some (ival.add ⟨(natOfDigits fd.1 : Int), 10 ^ fd.1.length⟩, fd.2)
        | _ => some (ival, afterInt)
      match fracStep with
      | none => none
      | some (v, afterFrac) =>
        match afterFrac with
        | 'e' :: rest =>
          match parseExponent rest with
          | none => none
          | some (ex, rest2) => some ((sign.1.mul v).mul (pow10 ex), rest2)
        | 'E' :: rest =>
          match parseExponent rest with
          | none => none
          | some (ex, rest2) => some ((sign.1.mul v).mul (pow10 ex), rest2)
        | _ => some (sign.1.mul v, afterFrac)

mutual

/-- Parse one JSON value (fuel-based recursion). -/
def parseValue (fuel : Nat) (cs : List Char) : Option (Json × List Char) :=
  match fuel with
  | 0 => none
  | f + 1 =>
    match skipWs cs with
    | [] => none
    | '\x7b' :: rest =>
      match skipWs rest with
      | '\x7d' :: rest2 => some (Json.obj [], rest2)
      | _ => parseMembers f rest []
    | '[' :: rest =>
      match skipWs rest with
      | ']' :: rest2 => some (Json.arr [], rest2)
      | _ => parseElems f rest []
    | '\x22' :: rest =>
      match parseStringBody [] rest with
      | some (s, rest2) => some (Json.str s, rest2)
      | none => none
    | 't' :: 'r' :: 'u' :: 'e' :: rest => some (Json.bool true, rest)
    | 'f' :: 'a' :: 'l' :: 's' :: 'e' :: rest => some (Json.bool false, rest)
    | 'n' :: 'u' :: 'l' :: 'l' :: rest => some (Json.null, rest)
    | other =>
      match parseNumber other with
      | some (q, rest) => some (Json.num q, rest)
      | none => none

/-- Parse the members of an object after its opening brace. -/
def parseMembers (fuel : Nat) (cs : List Char) (acc : List (String × Json)) :
    Option (Json × List Char) :=
  match fuel with
  | 0 => none
  | f + 1 =>
    match skipWs cs with
    | '\x22' :: rest =>
      match parseStringBody [] rest with
      | none => none
      | some (key, rest1) =>
        match skipWs rest1 with
        | ':' :: rest2 =>
          match parseValue f rest2 with
          | none => none
          | some (v, rest3) =>
            match skipWs rest3 with
            | ',' :: rest4 => parseMembers f rest4 (mapSet acc key v)
            | '\x7d' :: rest4 => some (Json.obj (mapSet acc key v), rest4)
            | _ => none
        | _ => none
    | _ => none

/-- Parse the elements of an array after its opening bracket. -/
def parseElems (fuel : Nat) (cs : List Char) (acc : List Json) :
    Option (Json × List Char) :=
  match fuel with
  | 0 => none
  | f + 1 =>
    match parseValue f cs with
    | none => none
    | some (v, rest1) =>
      match skipWs rest1 with
      | ',' :: rest2 => parseElems f rest2 (v :: acc)
      | ']' :: rest2 => some (Json.arr (v :: acc).reverse, rest2)
      | _ => none

end

/-- `JSON.parse`: parse one value and require only whitespace after it. -/
def jsonParse (cs : List Char) : Option Json :=
  match parseValue (2 * cs.length + 2) cs with
  | some (v, rest) => if skipWs rest = [] then some v else none
  | none => none

/-! ### Log entries and the statistical signal engine -/

/-- A log entry as handed to `analyzeAnomalies` by the analysis route: the
columns selected from `log_entries`, each nullable.  Timestamps are `Date`
values from the database driver, modelled as milliseconds since the epoch.
`is_anomaly` is absent (hence falsy) on the rows the route selects, so it
defaults to `false`. -/
structure Entry where
  timestamp : Option Int := none
  source_ip : Option String := none
  destination_ip : Option String := none
  url : Option String := none
  user_agent : Option String := none
  status_code : Option Int := none
  bytes_sent : Option Int := none
  method : Option String := none
  raw_data : Option String := none
  is_anomaly : Bool := false
deriving DecidableEq

/-- JavaScript truthiness of a nullable string: `null`, `undefined` and the
empty string are falsy. -/
def truthyStr : Option String → Option String
  | some s => if s = "" then none else some s
  | none => none

/-- JavaScript truthiness of a nullable number: `null`, `undefined` and `0`
are falsy. -/
def truthyInt : Option Int → Option Int
  | some n => if n = 0 then none else some n
  | none => none

/-- Environment-dependent JavaScript builtins used by the statistical pass:
`getHoursOf` models `new Date(ms).getHours()` (hour of day in the process
local time zone) and `urlHostname` models `new URL(u).hostname`, with
`none` when the `URL` constructor throws. -/
structure JsEnv where
  getHoursOf : Int → Int
  urlHostname : String → Option String

/-- `extractDomain`: `new URL(url).hostname`, `null` on a parse error. -/
def extractDomain (env : JsEnv) (url : String) : Option String :=
  env.urlHostname url

/-- The five frequency tables built by the single statistical pass. -/
structure Patterns where
  ipFrequency : List (String × Nat)
  statusCodes : List (Int × Nat)
  userAgents : List (String × Nat)
  timePatterns : List (Int × Nat)
  urlPatterns : List (String × Nat)
deriving DecidableEq

/-- The empty pattern tables. -/
def emptyPatterns : Patterns := ⟨[], [], [], [], []⟩

/-- The key by which an entry contributes to the IP frequency table
(`if (entry.source_ip)` guard). -/
def entryIpKey (e : Entry) : Option String :=
  truthyStr e.source_ip

/-- The key by which an entry contributes to the status-code table. -/
def entryStatusKey (e : Entry) : Option Int :=
  truthyInt e.status_code

/-- The key by which an entry contributes to the user-agent table. -/
def entryUaKey (e : Entry) : Option String :=
  truthyStr e.user_agent

/-- The key by which an entry contributes to the hour-of-day table
(`new Date(entry.timestamp).getHours()`; a `Date` column value is always
truthy). -/
def entryHourKey (env : JsEnv) (e : Entry) : Option Int :=
  e.timestamp.map env.getHoursOf

/-- The key by which an entry contributes to the URL-domain table
(`if (entry.url)` then `extractDomain`, skipped when the domain is falsy). -/
def entryUrlKey (env : JsEnv) (e : Entry) : Option String :=
  match truthyStr e.url with
  | some u => truthyStr (extractDomain env u)
  | none => none

/-- One iteration of the `entries.forEach` loop of
`performStatisticalAnalysis`.  The loop body updates the five tables one
after the other; the updates are independent (each touches one table), so
the iteration is modelled as one record construction with the source's
per-table update rule in each field. -/
def patternsStep (env : JsEnv) (p : Patterns) (e : Entry) : Patterns :=
  { ipFrequency :=
      match entryIpKey e with
      | some ip => bump p.ipFrequency ip
      | none => p.ipFrequency,
    statusCodes :=
      match entryStatusKey e with
      | some sc => bump p.statusCodes sc
      | none => p.statusCodes,
    userAgents :=
      match entryUaKey e with
      | some ua => bump p.userAgents ua
      | none => p.userAgents,
    timePatterns :=
      match entryHourKey env e with
      | some hour => bump p.timePatterns hour
      | none => p.timePatterns,
    urlPatterns :=
      match entryUrlKey env e with
      | some domain => bump p.urlPatterns domain
      | none => p.urlPatterns }

/-- The pattern tables after the full statistical pass. -/
def buildPatterns (env : JsEnv) (entries : List Entry) : Patterns :=
  entries.foldl (patternsStep env) emptyPatterns

/-- A statistical anomaly object.  Fields that a given anomaly type does
not set are `none`, like absent properties of the JS object literals. -/
structure StatAnomaly where
  type : String
  ip : Option String := none
  status_code : Option Int := none
  user_agent : Option String := none
  count : Nat := 0
  percentage : Option String := none
  confidence : JsNum := ⟨0, 1⟩
  reason : String := ""
deriving DecidableEq

/-- `Number.prototype.toFixed(2)`, on the exact rational value: round to
the nearest hundredth (half away from zero does not occur in this
development) and print with two decimals. -/
def toFixed2 (v : JsNum) : String :=
  let scaled := JsNum.add (v.mul ⟨100, 1⟩) ⟨1, 2⟩
  let n : Int := scaled.num.fdiv (scaled.den : Int)
  let whole := n.fdiv 100
  let frac := (n - 100 * whole).toNat
  toString whole ++ "." ++ (if frac < 10 then "0" ++ toString frac else toString frac)

/-- The high-frequency-IP rule: one anomaly per table entry whose count
strictly exceeds `Math.max(10, totalEntries * 0.1)`. -/
def highFrequencyAnomalies (ipFrequency : List (String × Nat)) (totalEntries : Nat) :
    List StatAnomaly :=
  ipFrequency.filterMap fun (kv : String × Nat) =>
    let ip := kv.1
    let count := kv.2
    if (JsNum.max ⟨10, 1⟩ (JsNum.mul ⟨(totalEntries : Int), 1⟩ ⟨1, 10⟩)).blt
        ⟨(count : Int), 1⟩ then
      let pct := toFixed2 ((JsNum.div ⟨(count : Int), 1⟩ ⟨(totalEntries : Int), 1⟩).mul ⟨100, 1⟩)
      some { type := "high_frequency_ip", ip := some ip, count := count,
             percentage := some pct,
             confidence := JsNum.min ⟨9, 10⟩
               (JsNum.div ⟨(count : Int), 1⟩ ⟨(totalEntries : Int), 1⟩),
             reason := "IP " ++ ip ++ " made " ++ toString count ++ " requests (" ++ pct
               ++ "% of total traffic)" }
    else none

/-- The status codes the unusual-status-code rule treats as common. -/
def commonStatusCodes : List Int := [200, 301, 302, 304, 404]

/-- The unusual-status-code rule: one anomaly per table entry whose code is
not common and whose count strictly exceeds `totalEntries * 0.05`. -/
def unusualStatusCodeAnomalies (statusCodes : List (Int × Nat)) (totalEntries : Nat) :
    List StatAnomaly :=
  statusCodes.filterMap fun (kv : Int × Nat) =>
    let status := kv.1
    let count := kv.2
    if !commonStatusCodes.contains status
        && (JsNum.mul ⟨(totalEntries : Int), 1⟩ ⟨5, 100⟩).blt ⟨(count : Int), 1⟩ then
      some { type := "unusual_status_code", status_code := some status, count := count,
             confidence := JsNum.min ⟨8, 10⟩
               ((JsNum.div ⟨(count : Int), 1⟩ ⟨(totalEntries : Int), 1⟩).mul ⟨2, 1⟩),
             reason := "Unusual status code " ++ toString status ++ " appeared "
               ++ toString count ++ " times" }
    else none

/-- The fixed substring list of the suspicious-user-agent rule. -/
def suspiciousPatterns : List String :=
  ["bot", "crawler", "scanner", "python", "curl", "wget", "nikto", "sqlmap", "nmap"]

/-- Substring containment on character lists. -/
def containsSub (pat : List Char) : List Char → Bool
  | [] => pat.isEmpty
  | c :: rest => pat.isPrefixOf (c :: rest) || containsSub pat rest

/-- Lower-cased character list of a string (ASCII case folding, matching
the `/i` regular-expression flag on the ASCII-only pattern list). -/
def lowerChars (s : String) : List Char :=
  s.data.map Char.toLower

/-- `isSuspiciousUserAgent`: falsy user agents are not suspicious, any
other is suspicious when one of the fixed patterns matches
case-insensitively. -/
def isSuspiciousUserAgent (userAgent : String) : Bool :=
  if userAgent = "" then false
  else suspiciousPatterns.any fun pat => containsSub (lowerChars pat) (lowerChars userAgent)

/-- The suspicious-user-agent rule: one anomaly per table entry whose key
matches the pattern list, with fixed confidence 0.85. -/
def suspiciousUserAgentAnomalies (userAgents : List (String × Nat)) : List StatAnomaly :=
  userAgents.filterMap fun (kv : String × Nat) =>
    let userAgent := kv.1
    let count := kv.2
    if isSuspiciousUserAgent userAgent then
      some { type := "suspicious_user_agent", user_agent := some userAgent, count := count,
             confidence := ⟨85, 100⟩,
             reason := "Suspicious user agent detected: " ++ userAgent }
    else none

/-- Result of `performStatisticalAnalysis`. -/
structure StatResult where
  patterns : Patterns
  anomalies : List StatAnomaly
deriving DecidableEq

/-- `performStatisticalAnalysis`: build the five frequency tables in one
pass, then emit the high-frequency-IP anomalies (in table order), the
unusual-status-code anomalies, and the suspicious-user-agent anomalies. -/
def performStatisticalAnalysis (env : JsEnv) (entries : List Entry) : StatResult :=
  let patterns := buildPatterns env entries
  let totalEntries := entries.length
  { patterns := patterns,
    anomalies :=
      highFrequencyAnomalies patterns.ipFrequency totalEntries
        ++ unusualStatusCodeAnomalies patterns.statusCodes totalEntries
        ++ suspiciousUserAgentAnomalies patterns.userAgents }

/-! ### The sample selector -/

/-- The set of IPs flagged by high-frequency-IP anomalies (as a list;
membership matches JS `Set.has` on the collected strings). -/
def suspiciousIPsOf (anomalies : List StatAnomaly) : List String :=
  (anomalies.filter fun a => a.type = "high_frequency_ip").filterMap fun a => a.ip

/-- `entry.source_ip && suspiciousIPs.has(entry.source_ip)`. -/
def isFromSuspiciousIP (suspiciousIPs : List String) (e : Entry) : Bool :=
  match truthyStr e.source_ip with
  | some ip => suspiciousIPs.contains ip
  | none => false

/-- `selectSampleEntries`: up to 30 entries from flagged IPs in original
order, topped up to `min(50, entries.length)` with the remaining entries in
original order. -/
def selectSampleEntries (entries : List Entry) (anomalies : List StatAnomaly) : List Entry :=
  let sampleSize := min 50 entries.length
  let suspiciousIPs := suspiciousIPsOf anomalies
  let suspiciousEntries := entries.filter (isFromSuspiciousIP suspiciousIPs)
  let normalEntries := entries.filter fun e => !isFromSuspiciousIP suspiciousIPs e
  let selectedSuspicious := suspiciousEntries.take 30
  let remainingSlots := sampleSize - selectedSuspicious.length
  let selectedNormal := normalEntries.take remainingSlots
  selectedSuspicious ++ selectedNormal

/-! ### The response reconciler -/

/-- JavaScript truthiness of a value. -/
def jsTruthy : Json → Bool
  | Json.null => false
  | Json.bool b => b
  | Json.num q => !(q.num = 0 : Bool)
  | Json.nan => false
  | Json.str s => !(s = "" : Bool)
  | Json.arr _ => true
  | Json.obj _ => true
  | Json.date _ => true

/-- Property access `v.k`: `none` models `undefined`. -/
def jsField (v : Json) (k : String) : Option Json :=
  match v with
  | Json.obj kvs => mapGet kvs k
  | _ => none

/-- The `x.k || dflt` defaulting idiom: the field when present and truthy,
the default otherwise. -/
def jsOrDefault (x : Option Json) (dflt : Json) : Json :=
  match x with
  | some v => if jsTruthy v then v else dflt
  | none => dflt

/-- `a || b` on two values. -/
def jsOrElse (a b : Json) : Json :=
  if jsTruthy a then a else b

/-- Array spread `[...x]` of a possibly-absent value: succeeds on arrays
(their elements) and strings (their characters); anything else throws a
`TypeError`, modelled as `none`. -/
def jsSpread : Option Json → Option (List Json)
  | some (Json.arr xs) => some xs
  | some (Json.str s) => some (s.data.map fun c => Json.str (String.mk [c]))
  | _ => none

/-- Index of the first character satisfying `p`. -/
def firstIdx (p : Char → Bool) : List Char → Option Nat
  | [] => none
  | c :: cs => if p c then some 0 else (firstIdx p cs).map (· + 1)

/-- Index of the last character satisfying `p`. -/
def lastIdx (p : Char → Bool) (cs : List Char) : Option Nat :=
  match firstIdx p cs.reverse with
  | some k => some (cs.length - 1 - k)
  | none => none

/-- `response.match(/\x7b[\s\S]*\x7d/)`: the leftmost-greedy match runs
from the first opening brace to the last closing brace, provided the
former precedes the latter. -/
def braceMatch (cs : List Char) : Option (List Char) :=
  match firstIdx (fun c => c = '\x7b') cs, lastIdx (fun c => c = '\x7d') cs with
  | some i, some j => if i < j then some ((cs.drop i).take (j + 1 - i)) else none
  | _, _ => none

/-- `response.substring(0, 200) + '...'`. -/
def degradedSummary (response : String) : String :=
  String.mk (response.data.take 200) ++ "..."

/-- The fallback object returned by `parseAIResponse` when the reply holds
no brace-delimited span at all. -/
def degradedFallback (response : String) : Json :=
  Json.obj [("summary", Json.str (degradedSummary response)),
            ("anomalies", Json.arr []),
            ("confidence", Json.num ⟨5, 10⟩),
            ("recommendations", Json.arr [Json.str "Manual review recommended"])]

/-- The object returned by the `catch` branch of `parseAIResponse` when
`JSON.parse` throws on the extracted span. -/
def parseFailureFallback : Json :=
  Json.obj [("summary", Json.str "AI analysis completed but response parsing failed"),
            ("anomalies", Json.arr []),
            ("confidence", Json.num ⟨3, 10⟩),
            ("recommendations", Json.arr [Json.str "Manual review of logs recommended"])]

/-- `parseAIResponse`: extract the greedy brace-delimited span and parse
it; fall back to `degradedFallback` when no span exists and to
`parseFailureFallback` when parsing the span throws. -/
def parseAIResponse (response : String) : Json :=
  match braceMatch response.data with
  | some jsonChars =>
    match jsonParse jsonChars with
    | some v => v
    | none => parseFailureFallback
  | none => degradedFallback response

/-- Modelled from the spec: the source of this repository contains no
balanced-object extractor, so the extraction the specification describes —
"the first balanced `\x7b...\x7d` JSON object found in the model's
free-text reply" — is modelled directly from those words: the first
position holding an opening brace from which a JSON value parses. -/
def firstBalancedJsonObject : List Char → Option Json
  | [] => none
  | c :: rest =>
    if c = '\x7b' then
      match parseValue (2 * (c :: rest).length + 2) (c :: rest) with
      | some (v, _) => some v
      | none => firstBalancedJsonObject rest
    else firstBalancedJsonObject rest

/-! ### The AI analysis step -/

/-- Outcome of the external model call: `fail` models any thrown error
(network, timeout, auth, rate limit, cancellation), `ok content` a reply
whose message content is `content`. -/
inductive AIOutcome where
  | ok (content : String)
  | fail

/-- Result of `performAIAnalysis`.  The anomaly list mixes statistical
anomalies and inferred anomaly objects from the parsed reply; the other
fields hold whatever JS value the reply provided after defaulting. -/
structure AIResult where
  anomalies : List (StatAnomaly ⊕ Json)
  summary : Json
  confidence : Json
  recommendations : Json

/-- The statistical-only result of the `catch` branch of
`performAIAnalysis`. -/
def aiUnavailableResult (statAnoms : List StatAnomaly) : AIResult :=
  { anomalies := statAnoms.map Sum.inl,
    summary := Json.str "AI analysis unavailable, using statistical analysis only",
    confidence := Json.num ⟨5, 10⟩,
    recommendations := Json.arr [Json.str "Enable AI analysis for enhanced threat detection"] }

/-- `performAIAnalysis`: short-circuit on an empty sample; otherwise call
the external model, parse its reply, and merge.  A thrown call and a
non-spreadable `anomalies` field of the parsed reply both land in the
`catch` branch. -/
def performAIAnalysis (entries : List Entry) (statAnoms : List StatAnomaly)
    (outcome : AIOutcome) : AIResult :=
  let sampleEntries := selectSampleEntries entries statAnoms
  if sampleEntries.length = 0 then
    { anomalies := statAnoms.map Sum.inl,
      summary := Json.str "No suspicious patterns detected by AI analysis",
      confidence := Json.num ⟨3, 10⟩,
      recommendations := Json.arr [Json.str "Continue monitoring for unusual patterns"] }
  else
    match outcome with
    | AIOutcome.fail => aiUnavailableResult statAnoms
    | AIOutcome.ok content =>
      let parsedResponse := parseAIResponse content
      match jsSpread (jsField parsedResponse "anomalies") with
      | none => aiUnavailableResult statAnoms
      | some parsedAnomalies =>
        { anomalies := statAnoms.map Sum.inl ++ parsedAnomalies.map Sum.inr,
          summary := jsOrDefault (jsField parsedResponse "summary")
            (Json.str "AI analysis completed"),
          confidence := jsOrDefault (jsField parsedResponse "confidence") (Json.num ⟨7, 10⟩),
          recommendations := jsOrDefault (jsField parsedResponse "recommendations")
            (Json.arr []) }

/-! ### Timeline generation -/

/-- One timeline bucket: the hour-start timestamp (milliseconds since the
epoch), the number of records in the hour, and how many of them were
flagged anomalous. -/
structure TimelineBucket where
  timestamp : Int
  count : Nat
  anomalies : Nat
deriving DecidableEq

/-- Truncation of a millisecond timestamp to its containing UTC clock
hour, as performed by `toISOString().slice(0, 13) + ':00:00Z'`. -/
def hourStart (t : Int) : Int :=
  3600000 * (t.fdiv 3600000)

/-- One iteration of the bucketing loop of `generateTimeline`. -/
def timelineStep (m : List (Int × TimelineBucket)) (e : Entry) :
    List (Int × TimelineBucket) :=
  match e.timestamp with
  | some t =>
    let hour := hourStart t
    let bucket := (mapGet m hour).getD { timestamp := hour, count := 0, anomalies := 0 }
    let bucket1 := { bucket with
                     count := bucket.count + 1,
                     anomalies := bucket.anomalies + (if e.is_anomaly then 1 else 0) }
    mapSet m hour bucket1
  | none => m

/-- Hour-bucket ordering used by the final sort. -/
def bucketLe (a b : TimelineBucket) : Prop :=
  a.timestamp ≤ b.timestamp

instance bucketLeDecidable : DecidableRel bucketLe :=
  fun a b => inferInstanceAs (Decidable (a.timestamp ≤ b.timestamp))

/-- `generateTimeline`: bucket every record with a non-null timestamp by
hour, then sort the buckets by timestamp ascending.  (The JS engine sort is
unspecified as an algorithm; the bucket keys are pairwise distinct, so the
sorted sequence is unique and insertion sort realizes it.) -/
def generateTimeline (entries : List Entry) : List TimelineBucket :=
  let timeBuckets := entries.foldl timelineStep []
  List.insertionSort bucketLe (timeBuckets.map Prod.snd)

/-! ### The top-level analysis entry point -/

/-- Result of `analyzeAnomalies`.  The empty-input early return carries no
`timeline` and no `recommendations` property and an empty-object
`patterns`; those absences are modelled by `none`. -/
structure AnalysisResult where
  anomalies : List (StatAnomaly ⊕ Json)
  summary : Json
  confidence : Json
  patterns : Option Patterns
  timeline : Option (List TimelineBucket)
  recommendations : Option Json

/-- `analyzeAnomalies`: early return on no entries, otherwise the
statistical pass, the AI step, and the timeline, assembled into one
result. -/
def analyzeAnomalies (env : JsEnv) (entries : List Entry) (outcome : AIOutcome) :
    AnalysisResult :=
  if entries.length = 0 then
    { anomalies := [],
      summary := Json.str "No entries to analyze",
      confidence := Json.num ⟨0, 1⟩,
      patterns := none,
      timeline := none,
      recommendations := none }
  else
    let statisticalAnomalies := performStatisticalAnalysis env entries
    let aiAnalysis := performAIAnalysis entries statisticalAnomalies.anomalies outcome
    { anomalies := aiAnalysis.anomalies,
      summary := aiAnalysis.summary,
      confidence := aiAnalysis.confidence,
      patterns := some statisticalAnomalies.patterns,
      timeline := some (generateTimeline entries),
      recommendations := some aiAnalysis.recommendations }

/-! ### The Cloudflare One line parser -/

/-- JavaScript string coercion of the values reachable here.  Number
rendering beyond integers, array joining and `Date` formatting are
engine-level details no proved property depends on; integers (the only
numbers realistic log fields hold) render exactly. -/
def jsToString : Json → String
  | Json.null => "null"
  | Json.bool true => "true"
  | Json.bool false => "false"
  | Json.num q =>
    if (q.den : Int) ∣ q.num then toString (q.num / (q.den : Int))
    else toString q.num ++ "/" ++ toString q.den
  | Json.nan => "NaN"
  | Json.str s => s
  | Json.arr _ => ""
  | Json.obj _ => "[object Object]"
  | Json.date _ => "[Date]"

/-- `parseInt(s, 10)`: skip leading whitespace, optional sign, then the
longest digit prefix; `NaN` when no digit follows. -/
def parseIntChars (cs : List Char) : Json :=
  let cs1 := cs.dropWhile fun c => isJsonWs c
  match cs1 with
  | '-' :: rest =>
    match (takeDigits rest).1 with
    | [] => Json.nan
    | ds => Json.num ⟨-(natOfDigits ds : Int), 1⟩
  | '+' :: rest =>
    match (takeDigits rest).1 with
    | [] => Json.nan
    | ds => Json.num ⟨(natOfDigits ds : Int), 1⟩
  | _ =>
    match (takeDigits cs1).1 with
    | [] => Json.nan
    | ds => Json.num ⟨(natOfDigits ds : Int), 1⟩

/-- `parseInt(v, 10)` on an arbitrary value: coerce to string, parse. -/
def jsParseInt (v : Json) : Json :=
  parseIntChars (jsToString v).data

/-- `entry.k || null`. -/
def jsFieldOrNull (entry : Json) (k : String) : Json :=
  jsOrElse ((jsField entry k).getD Json.null) Json.null

/-- `hasOwnProperty` on the values `JSON.parse` can produce: own-property
presence of objects; primitives and arrays own none of the fields probed
here.  (`null.hasOwnProperty` throws; the enclosing `catch` of `parseLine`
turns that into the same `null` result this model returns directly.) -/
def jsonHasKey (v : Json) (k : String) : Bool :=
  match v with
  | Json.obj kvs => (mapGet kvs k).isSome
  | _ => false

/-- The fields every Cloudflare One entry must carry. -/
def requiredFields : List String :=
  ["EdgeStartTimestamp", "ClientIP", "ClientRequestHost"]

/-- The optional-but-expected fields, at least one of which must be
present. -/
def optionalFields : List String :=
  ["ClientRequestURI", "ClientRequestMethod", "OriginResponseStatus"]

/-- `isCloudflareOneEntry`: all required fields and at least one optional
field are own properties. -/
def isCloudflareOneEntry (entry : Json) : Bool :=
  requiredFields.all (fun f => jsonHasKey entry f)
    && optionalFields.any (fun f => jsonHasKey entry f)

/-- `extractTimestamp`: `new Date(entry.EdgeStartTimestamp)` when the field
is truthy, `null` otherwise. -/
def extractTimestamp (entry : Json) : Json :=
  let timestamp := (jsField entry "EdgeStartTimestamp").getD Json.null
  if jsTruthy timestamp then Json.date timestamp else Json.null

/-- `extractURL`: synthesize `protocol://host uri` only when host and URI
are both truthy; the protocol defaults to `https`. -/
def extractURL (entry : Json) : Json :=
  let host := (jsField entry "ClientRequestHost").getD Json.null
  let uri := (jsField entry "ClientRequestURI").getD Json.null
  if jsTruthy host && jsTruthy uri then
    let protocol := jsOrElse ((jsField entry "ClientRequestProtocol").getD Json.null)
      (Json.str "https")
    Json.str (jsToString protocol ++ "://" ++ jsToString host ++ jsToString uri)
  else Json.null

/-- `extractStatusCode`: origin status preferred over edge status, parsed
as a base-10 integer, `null` when both are falsy. -/
def extractStatusCode (entry : Json) : Json :=
  let status := jsOrElse ((jsField entry "OriginResponseStatus").getD Json.null)
    ((jsField entry "EdgeResponseStatus").getD Json.null)
  if jsTruthy status then jsParseInt status else Json.null

/-- `extractBytesSent`: edge bytes preferred over origin bytes. -/
def extractBytesSent (entry : Json) : Json :=
  let bytes := jsOrElse ((jsField entry "EdgeResponseBytes").getD Json.null)
    ((jsField entry "OriginResponseBytes").getD Json.null)
  if jsTruthy bytes then jsParseInt bytes else Json.null

/-- A parsed log line in the normalized record shape `parseLine` builds. -/
structure ParsedEntry where
  lineNumber : Nat
  timestamp : Json
  source_ip : Json
  destination_ip : Json
  url : Json
  user_agent : Json
  status_code : Json
  bytes_sent : Json
  method : Json
  country : Json
  asn : Json
  action : Json
  policy_name : Json
  raw_data : String
  original_entry : Json

/-- Whitespace trimming of a raw line (`String.prototype.trim`). -/
def trimChars (cs : List Char) : List Char :=
  ((cs.dropWhile Char.isWhitespace).reverse.dropWhile Char.isWhitespace).reverse

/-- `content.split('\n')`: split a character list on newlines; the result
always has one more group than there are newline characters. -/
def splitOnNl : List Char → List (List Char)
  | [] => [[]]
  | c :: rest =>
    match splitOnNl rest with
    | [] => [[]]
    | group :: groups =>
      if c = '\n' then [] :: group :: groups else (c :: group) :: groups

/-- `CloudflareOneParser.parseLine`: trim, parse as JSON, check the
Cloudflare One shape, and extract every normalized field; any failure
yields `null`. -/
def parseLine (line : List Char) (lineNumber : Nat) : Option ParsedEntry :=
  let trimmedLine := trimChars line
  if trimmedLine.isEmpty then none
  else
    match jsonParse trimmedLine with
    | none => none
    | some parsed =>
      if !isCloudflareOneEntry parsed then none
      else
        some { lineNumber := lineNumber,
               timestamp := extractTimestamp parsed,
               source_ip := jsFieldOrNull parsed "ClientIP",
               destination_ip := jsFieldOrNull parsed "OriginIP",
               url := extractURL parsed,
               user_agent := jsFieldOrNull parsed "UserAgent",
               status_code := extractStatusCode parsed,
               bytes_sent := extractBytesSent parsed,
               method := jsFieldOrNull parsed "ClientRequestMethod",
               country := jsFieldOrNull parsed "ClientCountry",
               asn := jsFieldOrNull parsed "ClientASN",
               action := jsFieldOrNull parsed "Action",
               policy_name := jsFieldOrNull parsed "PolicyName",
               raw_data := String.mk trimmedLine,
               original_entry := parsed }

/-- `CloudflareOneParser.validateFormat`: at least 60% of the first up to
five non-blank lines must parse as Cloudflare One entries. -/
def validateFormat (content : String) : Bool :=
  let lines := (splitOnNl content.data).filter fun line => !(trimChars line).isEmpty
  if lines.length = 0 then false
  else
    let sampleSize := min 5 lines.length
    let validCount := ((lines.take sampleSize).filter fun line =>
      match jsonParse line with
      | some parsed => isCloudflareOneEntry parsed
      | none => false).length
    JsNum.ble ⟨6, 10⟩ (JsNum.div ⟨(validCount : Int), 1⟩ ⟨(sampleSize : Int), 1⟩)

/-! ### The parser factory -/

/-- `LogParserFactory.autoDetectParser`: try each registered parser's
`validateFormat` in registration order; the registry holds exactly one
parser (`cloudflare_one`). -/
def autoDetectParser (content : String) : Option String :=
  if validateFormat content then some "cloudflare_one" else none

/-- The metadata block of a parse result.  The wall-clock `parseDate` field
is not modelled. -/
structure ParseMetadata where
  totalLines : Nat
  validEntries : Nat
  invalidEntries : Nat
  filename : String
  logType : String

/-- Result of a successful `parseLogFile`. -/
structure ParseResult where
  entries : List ParsedEntry
  metadata : ParseMetadata

/-- The line loop shared by `parseLogFile` and `parseLogFileWithParser`:
skip blank lines, count parsed lines as valid and rejected ones as
invalid.  `i` is the zero-based index of the first line, so `parseLine`
receives `i + 1` as the one-based line number. -/
def processLines : List (List Char) → Nat → List ParsedEntry × Nat × Nat
  | [], _ => ([], 0, 0)
  | line :: rest, i =>
    let result := processLines rest (i + 1)
    if (trimChars line).isEmpty then result
    else
      match parseLine line (i + 1) with
      | some entry => (entry :: result.1, result.2.1 + 1, result.2.2)
      | none => (result.1, result.2.1, result.2.2 + 1)

/-- `parseLogFile`: auto-detect the format (throwing a detection error when
no parser matches, modelled by `Except.error`), then parse every non-blank
line. -/
def parseLogFile (content filename : String) : Except String ParseResult :=
  match autoDetectParser content with
  | none =>
    Except.error "Unable to detect log format. Please ensure the file is in a supported format."
  | some logType =>
    let lines := splitOnNl content.data
    let parsed := processLines lines 0
    Except.ok { entries := parsed.1,
                metadata := { totalLines := lines.length,
                              validEntries := parsed.2.1,
                              invalidEntries := parsed.2.2,
                              filename := filename,
                              logType := logType } }

/-- `parseLogFileWithParser`: same loop with an explicitly chosen parser;
only `cloudflare_one` is registered.  (The source error message quotes the
requested type; the quoting characters are elided here.) -/
def parseLogFileWithParser (content logType filename : String) : Except String ParseResult :=
  if logType = "cloudflare_one" then
    let lines := splitOnNl content.data
    let parsed := processLines lines 0
    Except.ok { entries := parsed.1,
                metadata := { totalLines := lines.length,
                              validEntries := parsed.2.1,
                              invalidEntries := parsed.2.2,
                              filename := filename,
                              logType := logType } }
  else
    Except.error "Parser for log type not found. Available types: cloudflare_one"

/-! ### Auxiliary definitions for the verification -/

/-- One step of the generic one-table tally the pattern pass performs:
`bump` the key `f` extracts, when any. -/
def tallyStep {α : Type} [DecidableEq α] (f : Entry → Option α) (m : List (α × Nat))
    (e : Entry) : List (α × Nat) :=
  match f e with
  | some k => bump m k
  | none => m

/-- The generic one-table tally the pattern pass performs: fold `bump` over
the keys `f` extracts. -/
def tally {α : Type} [DecidableEq α] (f : Entry → Option α) (entries : List Entry) :
    List (α × Nat) :=
  entries.foldl (tallyStep f) []

/-- First occurrences of a list's elements, skipping anything in `seen`:
the key iteration order of a JS `Map` built by repeated `set`. -/
def firstOccsAux {α : Type} [DecidableEq α] (seen : List α) : List α → List α
  | [] => []
  | a :: l => if a ∈ seen then firstOccsAux seen l else a :: firstOccsAux (a :: seen) l

/-- First occurrences of a list's elements, in order. -/
def firstOccs {α : Type} [DecidableEq α] (l : List α) : List α :=
  firstOccsAux [] l

/-- Position of an anomaly type in the emission order of
`performStatisticalAnalysis`. -/
def anomalyTypeRank (t : String) : Nat :=
  if t = "high_frequency_ip" then 0
  else if t = "unusual_status_code" then 1
  else 2

instance : IsTotal TimelineBucket bucketLe :=
  ⟨fun a b => Int.le_total a.timestamp b.timestamp⟩

instance : IsTrans TimelineBucket bucketLe :=
  ⟨fun _ _ _ hab hbc => le_trans hab hbc⟩

/-- A concrete environment for evaluated examples: every hour reads 0 and
every URL fails to parse. -/
def env0 : JsEnv := ⟨fun _ => 0, fun _ => none⟩

/-- A 100-record set: one IP with count 11, one with count 10, and 79
records without a source IP. -/
def boundaryEntries : List Entry :=
  List.replicate 11 { source_ip := some "9.9.9.9" }
    ++ List.replicate 10 { source_ip := some "8.8.8.8" }
    ++ List.replicate 79 ({ } : Entry)

/-- A single concrete record used by evaluated witnesses. -/
def sampleEntry : Entry := { source_ip := some "3.3.3.3" }

/-- A single concrete record with a suspicious user agent. -/
def curlEntry : Entry := { user_agent := some "CURL/7.68.0" }

/-- A concrete minimal Cloudflare One log line (all probed fields present,
all null). -/
def witnessLine : String :=
  "\x7b\x22EdgeStartTimestamp\x22:null,\x22ClientIP\x22:null,\x22ClientRequestHost\x22:null,\x22ClientRequestURI\x22:null\x7d"

/-- The JSON value `witnessLine` parses to. -/
def witnessParsed : Json :=
  Json.obj [("EdgeStartTimestamp", Json.null), ("ClientIP", Json.null),
            ("ClientRequestHost", Json.null), ("ClientRequestURI", Json.null)]

/-- The normalized record `parseLine` produces for `witnessLine`. -/
def witnessEntry : ParsedEntry :=
  { lineNumber := 1, timestamp := Json.null, source_ip := Json.null,
    destination_ip := Json.null, url := Json.null, user_agent := Json.null,
    status_code := Json.null, bytes_sent := Json.null, method := Json.null,
    country := Json.null, asn := Json.null, action := Json.null,
    policy_name := Json.null, raw_data := witnessLine,
    original_entry := witnessParsed }

/-- The parse result for the one-line file `witnessLine`. -/
def witnessParseResult : ParseResult :=
  { entries := [witnessEntry],
    metadata := { totalLines := 1, validEntries := 1, invalidEntries := 0,
                  filename := "logs.jsonl", logType := "cloudflare_one" } }

/-- A free-text model reply holding two separate balanced objects. -/
def r0 : String := "x \x7b\x22a\x22: 1\x7d y \x7b\x22b\x22: 2\x7d z"

/-- The greedy span of `r0`: first opening to last closing brace. -/
def r0span : List Char := "\x7b\x22a\x22: 1\x7d y \x7b\x22b\x22: 2\x7d".data

/-- A well-formed model reply whose anomalies array holds one empty
object. -/
def c6content : String :=
  "\x7b\x22summary\x22:\x22s\x22,\x22anomalies\x22:[\x7b\x7d],\x22confidence\x22:0.8,\x22recommendations\x22:[\x22r\x22]\x7d"

/-- The merged result `performAIAnalysis` produces for `c6content`. -/
def c6result : AIResult :=
  { anomalies := [Sum.inr (Json.obj [])], summary := Json.str "s",
    confidence := Json.num ⟨8, 10⟩, recommendations := Json.arr [Json.str "r"] }

/-- The numeric `confidence` field of a value, when it has one; a decidable
discriminator between the reconciler's fallback objects. -/
def confidenceNum (v : Json) : Option JsNum :=
  match jsField v "confidence" with
  | some (Json.num q) => some q
  | _ => none

/-! ## Association-list and tally lemmas -/

theorem mapGet_bump {α : Type} [DecidableEq α] (m : List (α × Nat)) (k k' : α) :
    mapGet (bump m k) k' =
      if k' = k then some ((mapGet m k').getD 0 + 1) else mapGet m k' := by
  induction m with
  | nil =>
    by_cases h : k' = k
    · subst h; simp [bump, mapGet]
    · simp [bump, mapGet, h, Ne.symm h]
  | cons kv rest ih =>
    obtain ⟨k1, v⟩ := kv
    by_cases h1 : k1 = k
    · subst h1
      by_cases h2 : k' = k1
      · subst h2; simp [bump, mapGet]
      · simp [bump, mapGet, h2, Ne.symm h2]
    · by_cases h2 : k1 = k'
      · subst h2
        simp [bump, mapGet, h1, Ne.symm h1]
      · simp [bump, mapGet, h1, h2, ih]

theorem keys_bump {α : Type} [DecidableEq α] (m : List (α × Nat)) (k : α) :
    (bump m k).map Prod.fst =
      if k ∈ m.map Prod.fst then m.map Prod.fst else m.map Prod.fst ++ [k] := by
  induction m with
  | nil => simp [bump]
  | cons kv rest ih =>
    obtain ⟨k1, v⟩ := kv
    by_cases h1 : k1 = k
    · subst h1; simp [bump]
    · have h1' : ¬ k = k1 := fun hh => h1 hh.symm
      by_cases h2 : k ∈ rest.map Prod.fst <;> simp [bump, h1, h1', h2, ih]

theorem mapGet_eq_none_iff {α β : Type} [DecidableEq α] (m : List (α × β)) (k : α) :
    mapGet m k = none ↔ k ∉ m.map Prod.fst := by
  induction m with
  | nil => simp [mapGet]
  | cons kv rest ih =>
    obtain ⟨k1, v⟩ := kv
    by_cases h1 : k1 = k
    · subst h1; simp [mapGet]
    · simp [mapGet, h1, ih, not_or, Ne.symm h1]

theorem mem_of_mapGet_eq_some {α β : Type} [DecidableEq α] {m : List (α × β)} {k : α}
    {v : β} (h : mapGet m k = some v) : (k, v) ∈ m := by
  induction m with
  | nil => simp [mapGet] at h
  | cons kv rest ih =>
    obtain ⟨k1, v1⟩ := kv
    by_cases h1 : k1 = k
    · subst h1
      have h' : v1 = v := by simpa [mapGet] using h
      subst h'
      exact List.mem_cons_self _ _
    · simp only [mapGet, if_neg h1] at h
      exact List.mem_cons_of_mem _ (ih h)

theorem mapGet_eq_some_of_mem_nodup {α β : Type} [DecidableEq α] {m : List (α × β)}
    {k : α} {v : β} (hnd : (m.map Prod.fst).Nodup) (h : (k, v) ∈ m) :
    mapGet m k = some v := by
  induction m with
  | nil => simp at h
  | cons kv rest ih =>
    obtain ⟨k1, v1⟩ := kv
    rw [List.map_cons, List.nodup_cons] at hnd
    rcases List.mem_cons.mp h with h | h
    · injection h with hk hv
      subst hk; subst hv
      simp [mapGet]
    · have hne : k1 ≠ k := by
        rintro rfl
        exact hnd.1 (List.mem_map.mpr ⟨(k1, v), h, rfl⟩)
      simp [mapGet, hne, ih hnd.2 h]

theorem tally_fold_get {α : Type} [DecidableEq α] (f : Entry → Option α) (l : List Entry)
    (m : List (α × Nat)) (k : α) :
    mapGet (l.foldl (tallyStep f) m) k =
      match mapGet m k with
      | some c => some (c + (l.filterMap f).count k)
      | none =>
        if (l.filterMap f).count k = 0 then none else some ((l.filterMap f).count k) := by
  induction l generalizing m with
  | nil =>
    cases h : mapGet m k <;> simp [h]
  | cons e t ih =>
    cases hf : f e with
    | none =>
      have step : (e :: t).foldl (tallyStep f) m = t.foldl (tallyStep f) m := by
        simp [tallyStep, hf]
      rw [step, ih m, List.filterMap_cons_none hf]
    | some k1 =>
      have step : (e :: t).foldl (tallyStep f) m = t.foldl (tallyStep f) (bump m k1) := by
        simp [tallyStep, hf]
      rw [step, ih (bump m k1), mapGet_bump, List.filterMap_cons_some hf,
        List.count_cons]
      by_cases hk : k = k1
      · subst hk
        cases h : mapGet m k <;> simp [h] <;> omega
      · have hk' : ¬ k1 = k := fun hh => hk hh.symm
        cases h : mapGet m k <;> simp [h, hk, hk']

theorem tally_get {α : Type} [DecidableEq α] (f : Entry → Option α) (l : List Entry)
    (k : α) :
    mapGet (tally f l) k =
      if (l.filterMap f).count k = 0 then none else some ((l.filterMap f).count k) := by
  have h := tally_fold_get f l [] k
  simpa [tally, mapGet] using h

theorem firstOccsAux_congr {α : Type} [DecidableEq α] :
    ∀ (l : List α) {s s' : List α}, (∀ x, x ∈ s ↔ x ∈ s') →
      firstOccsAux s l = firstOccsAux s' l
  | [], _, _, _ => rfl
  | a :: l, s, s', h => by
    by_cases ha : a ∈ s
    · simp [firstOccsAux, ha, (h a).mp ha, firstOccsAux_congr l h]
    · have ha' : a ∉ s' := fun hh => ha ((h a).mpr hh)
      have h' : ∀ x, x ∈ a :: s ↔ x ∈ a :: s' := by
        intro x; simp [h x]
      simp [firstOccsAux, ha, ha', firstOccsAux_congr l h']

theorem tally_fold_keys {α : Type} [DecidableEq α] (f : Entry → Option α) (l : List Entry)
    (m : List (α × Nat)) :
    (l.foldl (tallyStep f) m).map Prod.fst =
      m.map Prod.fst ++ firstOccsAux (m.map Prod.fst) (l.filterMap f) := by
  induction l generalizing m with
  | nil => simp [firstOccsAux]
  | cons e t ih =>
    cases hf : f e with
    | none =>
      have step : (e :: t).foldl (tallyStep f) m = t.foldl (tallyStep f) m := by
        simp [tallyStep, hf]
      rw [step, ih m, List.filterMap_cons_none hf]
    | some k1 =>
      have step : (e :: t).foldl (tallyStep f) m = t.foldl (tallyStep f) (bump m k1) := by
        simp [tallyStep, hf]
      rw [step, ih (bump m k1), List.filterMap_cons_some hf, keys_bump]
      by_cases hk : k1 ∈ m.map Prod.fst
      · simp [hk, firstOccsAux]
      · have hcongr := @firstOccsAux_congr α _ (t.filterMap f)
          (m.map Prod.fst ++ [k1]) (k1 :: m.map Prod.fst) (by intro x; simp; tauto)
        simp [hk, firstOccsAux, hcongr]

theorem tally_keys {α : Type} [DecidableEq α] (f : Entry → Option α) (l : List Entry) :
    (tally f l).map Prod.fst = firstOccs (l.filterMap f) := by
  have h := tally_fold_keys f l []
  simpa [tally, firstOccs] using h

theorem firstOccsAux_nodup {α : Type} [DecidableEq α] :
    ∀ (l : List α) (s : List α),
      (firstOccsAux s l).Nodup ∧ ∀ x ∈ firstOccsAux s l, x ∉ s
  | [], s => by simp [firstOccsAux]
  | a :: l, s => by
    by_cases ha : a ∈ s
    · simpa [firstOccsAux, ha] using firstOccsAux_nodup l s
    · obtain ⟨hnd, hmem⟩ := firstOccsAux_nodup l (a :: s)
      refine ⟨?_, ?_⟩
      · simp only [firstOccsAux, if_neg ha, List.nodup_cons]
        exact ⟨fun hh => (hmem a hh) (List.mem_cons_self a s), hnd⟩
      · intro x hx
        simp only [firstOccsAux, if_neg ha, List.mem_cons] at hx
        rcases hx with rfl | hx
        · exact ha
        · exact fun hxs => (hmem x hx) (List.mem_cons_of_mem _ hxs)

theorem tally_keys_nodup {α : Type} [DecidableEq α] (f : Entry → Option α)
    (l : List Entry) : ((tally f l).map Prod.fst).Nodup := by
  rw [tally_keys]
  exact (firstOccsAux_nodup _ []).1

theorem tally_mem_count {α : Type} [DecidableEq α] {f : Entry → Option α} {l : List Entry}
    {k : α} {c : Nat} (h : (k, c) ∈ tally f l) : c = (l.filterMap f).count k := by
  have hget := mapGet_eq_some_of_mem_nodup (tally_keys_nodup f l) h
  rw [tally_get] at hget
  by_cases h0 : (l.filterMap f).count k = 0
  · simp [h0] at hget
  · simp only [h0, if_false] at hget
    exact (Option.some.injEq .. ▸ hget).symm

theorem mem_tally_keys_iff {α : Type} [DecidableEq α] (f : Entry → Option α)
    (l : List Entry) (k : α) :
    k ∈ (tally f l).map Prod.fst ↔ k ∈ l.filterMap f := by
  rw [← not_iff_not, ← mapGet_eq_none_iff, tally_get]
  by_cases h0 : (l.filterMap f).count k = 0
  · simp [h0, List.count_eq_zero.mp h0]
  · simp [h0, List.count_pos_iff.mp (Nat.pos_of_ne_zero h0)]

theorem filterMap_if {α β : Type} (l : List α) (p : α → Bool) (g : α → β) :
    (l.filterMap fun x => if p x then some (g x) else none) = (l.filter p).map g := by
  induction l with
  | nil => simp
  | cons a t ih =>
    by_cases hp : p a <;> simp [hp, ih]

/-! ## The pattern pass projects onto five independent tallies -/

theorem buildPatterns_ipFrequency (env : JsEnv) (entries : List Entry) :
    (buildPatterns env entries).ipFrequency = tally entryIpKey entries := by
  have aux : ∀ (l : List Entry) (p : Patterns),
      (l.foldl (patternsStep env) p).ipFrequency =
        l.foldl (tallyStep entryIpKey) p.ipFrequency := by
    intro l
    induction l with
    | nil => intro p; rfl
    | cons e t ih =>
      intro p
      rw [List.foldl_cons, List.foldl_cons, ih]
      congr 1
      cases hf : entryIpKey e <;> simp [patternsStep, tallyStep, hf]
  have h := aux entries emptyPatterns
  simpa only [buildPatterns, tally, emptyPatterns] using h

theorem buildPatterns_statusCodes (env : JsEnv) (entries : List Entry) :
    (buildPatterns env entries).statusCodes = tally entryStatusKey entries := by
  have aux : ∀ (l : List Entry) (p : Patterns),
      (l.foldl (patternsStep env) p).statusCodes =
        l.foldl (tallyStep entryStatusKey) p.statusCodes := by
    intro l
    induction l with
    | nil => intro p; rfl
    | cons e t ih =>
      intro p
      rw [List.foldl_cons, List.foldl_cons, ih]
      congr 1
      cases hf : entryStatusKey e <;> simp [patternsStep, tallyStep, hf]
  have h := aux entries emptyPatterns
  simpa only [buildPatterns, tally, emptyPatterns] using h

theorem buildPatterns_userAgents (env : JsEnv) (entries : List Entry) :
    (buildPatterns env entries).userAgents = tally entryUaKey entries := by
  have aux : ∀ (l : List Entry) (p : Patterns),
      (l.foldl (patternsStep env) p).userAgents =
        l.foldl (tallyStep entryUaKey) p.userAgents := by
    intro l
    induction l with
    | nil => intro p; rfl
    | cons e t ih =>
      intro p
      rw [List.foldl_cons, List.foldl_cons, ih]
      congr 1
      cases hf : entryUaKey e <;> simp [patternsStep, tallyStep, hf]
  have h := aux entries emptyPatterns
  simpa only [buildPatterns, tally, emptyPatterns] using h

/-! ## The sample selector -/

theorem selectSampleEntries_eq (entries : List Entry) (anomalies : List StatAnomaly) :
    selectSampleEntries entries anomalies =
      (entries.filter (isFromSuspiciousIP (suspiciousIPsOf anomalies))).take 30 ++
        (entries.filter fun e => !isFromSuspiciousIP (suspiciousIPsOf anomalies) e).take
          (min 50 entries.length -
            ((entries.filter (isFromSuspiciousIP (suspiciousIPsOf anomalies))).take
                30).length) :=
  rfl

/-- C3: the sample selector returns at most 50 records in total, at most
30 records from flagged IPs, the flagged prefix is exactly the first up to
30 flagged records in original order, the rest is the prefix of the
non-flagged records in original order filling the remaining budget, and
the flagged records all precede the non-flagged ones. -/
theorem claim_C3_sample_selector (entries : List Entry) (anomalies : List StatAnomaly) :
    (selectSampleEntries entries anomalies).length ≤ 50 ∧
    (selectSampleEntries entries anomalies).filter
        (isFromSuspiciousIP (suspiciousIPsOf anomalies)) =
      (entries.filter (isFromSuspiciousIP (suspiciousIPsOf anomalies))).take 30 ∧
    ((selectSampleEntries entries anomalies).filter
        (isFromSuspiciousIP (suspiciousIPsOf anomalies))).length ≤ 30 ∧
    (selectSampleEntries entries anomalies).filter
        (fun e => !isFromSuspiciousIP (suspiciousIPsOf anomalies) e) =
      (entries.filter fun e => !isFromSuspiciousIP (suspiciousIPsOf anomalies) e).take
        (min 50 entries.length -
          ((entries.filter (isFromSuspiciousIP (suspiciousIPsOf anomalies))).take
              30).length) ∧
    selectSampleEntries entries anomalies =
      (selectSampleEntries entries anomalies).filter
          (isFromSuspiciousIP (suspiciousIPsOf anomalies)) ++
        (selectSampleEntries entries anomalies).filter
          (fun e => !isFromSuspiciousIP (suspiciousIPsOf anomalies) e) := by
  have hS : ∀ a ∈ (entries.filter (isFromSuspiciousIP (suspiciousIPsOf anomalies))).take 30,
      isFromSuspiciousIP (suspiciousIPsOf anomalies) a = true :=
    fun a ha => List.of_mem_filter (List.mem_of_mem_take ha)
  have hSfull :
      ((entries.filter (isFromSuspiciousIP (suspiciousIPsOf anomalies))).take 30).filter
          (isFromSuspiciousIP (suspiciousIPsOf anomalies)) =
        (entries.filter (isFromSuspiciousIP (suspiciousIPsOf anomalies))).take 30 :=
    List.filter_eq_self.mpr hS
  have hSnil :
      ((entries.filter (isFromSuspiciousIP (suspiciousIPsOf anomalies))).take 30).filter
          (fun e => !isFromSuspiciousIP (suspiciousIPsOf anomalies) e) = [] :=
    List.filter_eq_nil_iff.mpr (by intro a ha; simp [hS a ha])
  have hN : ∀ a ∈ (entries.filter
        fun e => !isFromSuspiciousIP (suspiciousIPsOf anomalies) e).take
        (min 50 entries.length -
          ((entries.filter (isFromSuspiciousIP (suspiciousIPsOf anomalies))).take
              30).length),
      isFromSuspiciousIP (suspiciousIPsOf anomalies) a = false := by
    intro a ha
    have h1 := List.of_mem_filter (List.mem_of_mem_take ha)
    simpa using h1
  have hNfull :
      ((entries.filter fun e => !isFromSuspiciousIP (suspiciousIPsOf anomalies) e).take
            (min 50 entries.length -
              ((entries.filter (isFromSuspiciousIP (suspiciousIPsOf anomalies))).take
                  30).length)).filter
          (fun e => !isFromSuspiciousIP (suspiciousIPsOf anomalies) e) =
        (entries.filter fun e => !isFromSuspiciousIP (suspiciousIPsOf anomalies) e).take
          (min 50 entries.length -
            ((entries.filter (isFromSuspiciousIP (suspiciousIPsOf anomalies))).take
                30).length) :=
    List.filter_eq_self.mpr (by intro a ha; simp [hN a ha])
  have hNnil :
      ((entries.filter fun e => !isFromSuspiciousIP (suspiciousIPsOf anomalies) e).take
            (min 50 entries.length -
              ((entries.filter (isFromSuspiciousIP (suspiciousIPsOf anomalies))).take
                  30).length)).filter
          (isFromSuspiciousIP (suspiciousIPsOf anomalies)) = [] :=
    List.filter_eq_nil_iff.mpr (by intro a ha; simp [hN a ha])
  have hfilterS :
      (selectSampleEntries entries anomalies).filter
          (isFromSuspiciousIP (suspiciousIPsOf anomalies)) =
        (entries.filter (isFromSuspiciousIP (suspiciousIPsOf anomalies))).take 30 := by
    rw [selectSampleEntries_eq, List.filter_append, hSfull, hNnil, List.append_nil]
  have hfilterN :
      (selectSampleEntries entries anomalies).filter
          (fun e => !isFromSuspiciousIP (suspiciousIPsOf anomalies) e) =
        (entries.filter fun e => !isFromSuspiciousIP (suspiciousIPsOf anomalies) e).take
          (min 50 entries.length -
            ((entries.filter (isFromSuspiciousIP (suspiciousIPsOf anomalies))).take
                30).length) := by
    rw [selectSampleEntries_eq, List.filter_append, hSnil, hNfull, List.nil_append]
  refine ⟨?_, hfilterS, ?_, hfilterN, ?_⟩
  · rw [selectSampleEntries_eq, List.length_append]
    simp only [List.length_take]
    have h1 := List.length_filter_le (isFromSuspiciousIP (suspiciousIPsOf anomalies)) entries
    have h2 := List.length_filter_le
      (fun e => !isFromSuspiciousIP (suspiciousIPsOf anomalies) e) entries
    omega
  · rw [hfilterS]
    simp only [List.length_take]
    omega
  · rw [hfilterS, hfilterN, selectSampleEntries_eq]

/-- A nonempty record set always yields a nonempty sample: either some
record is from a flagged IP (and survives `take 30` of a nonempty list) or
all records are unflagged and fill the at-least-one-slot budget. -/
theorem selectSampleEntries_ne_nil {entries : List Entry} (anomalies : List StatAnomaly)
    (h : entries ≠ []) : selectSampleEntries entries anomalies ≠ [] := by
  intro hnil
  rw [selectSampleEntries_eq] at hnil
  obtain ⟨hS, hN⟩ := List.append_eq_nil.mp hnil
  have hSfilter : entries.filter (isFromSuspiciousIP (suspiciousIPsOf anomalies)) = [] := by
    rcases List.take_eq_nil_iff.mp hS with h30 | hfil
    · omega
    · exact hfil
  have hlen : entries.length ≠ 0 := fun h0 => h (List.length_eq_zero.mp h0)
  rw [hSfilter] at hN
  simp only [List.take_nil, List.length_nil, Nat.sub_zero] at hN
  rcases List.take_eq_nil_iff.mp hN with hmin | hfil
  · omega
  · obtain ⟨e, he⟩ := List.exists_mem_of_ne_nil entries h
    have h1 : isFromSuspiciousIP (suspiciousIPsOf anomalies) e = false := by
      have := List.filter_eq_nil_iff.mp hSfilter e he
      simpa using this
    have h2 := List.filter_eq_nil_iff.mp hfil e he
    simp [h1] at h2

/-! ## Numeric bridges between `JsNum` and `ℚ` -/

theorem JsNum.blt_iff (a b : JsNum) (ha : 0 < a.den) (hb : 0 < b.den) :
    (a.blt b = true) ↔ a.toRat < b.toRat := by
  have ha' : (0 : ℚ) < (a.den : ℚ) := by exact_mod_cast ha
  have hb' : (0 : ℚ) < (b.den : ℚ) := by exact_mod_cast hb
  rw [JsNum.blt, decide_eq_true_eq, JsNum.toRat, JsNum.toRat, div_lt_div_iff ha' hb']
  constructor
  · intro h; exact_mod_cast h
  · intro h; exact_mod_cast h

theorem JsNum.ble_iff (a b : JsNum) (ha : 0 < a.den) (hb : 0 < b.den) :
    (a.ble b = true) ↔ a.toRat ≤ b.toRat := by
  have ha' : (0 : ℚ) < (a.den : ℚ) := by exact_mod_cast ha
  have hb' : (0 : ℚ) < (b.den : ℚ) := by exact_mod_cast hb
  rw [JsNum.ble, decide_eq_true_eq, JsNum.toRat, JsNum.toRat, div_le_div_iff ha' hb']
  constructor
  · intro h; exact_mod_cast h
  · intro h; exact_mod_cast h

theorem JsNum.toRat_max (a b : JsNum) (ha : 0 < a.den) (hb : 0 < b.den) :
    (JsNum.max a b).toRat = Max.max a.toRat b.toRat := by
  rw [JsNum.max]
  by_cases h : a.ble b = true
  · rw [if_pos h, max_eq_right ((JsNum.ble_iff a b ha hb).mp h)]
  · rw [if_neg h]
    have h' : ¬ a.toRat ≤ b.toRat := fun hh => h ((JsNum.ble_iff a b ha hb).mpr hh)
    rw [max_eq_left (le_of_not_le h')]

theorem JsNum.toRat_min (a b : JsNum) (ha : 0 < a.den) (hb : 0 < b.den) :
    (JsNum.min a b).toRat = Min.min a.toRat b.toRat := by
  rw [JsNum.min]
  by_cases h : a.ble b = true
  · rw [if_pos h, min_eq_left ((JsNum.ble_iff a b ha hb).mp h)]
  · rw [if_neg h]
    have h' : ¬ a.toRat ≤ b.toRat := fun hh => h ((JsNum.ble_iff a b ha hb).mpr hh)
    rw [min_eq_right (le_of_not_le h')]

theorem JsNum.den_max_pos {a b : JsNum} (ha : 0 < a.den) (hb : 0 < b.den) :
    0 < (JsNum.max a b).den := by
  rw [JsNum.max]; split <;> assumption

theorem JsNum.div_nat (c t : Nat) (ht : 0 < t) :
    JsNum.div ⟨(c : Int), 1⟩ ⟨(t : Int), 1⟩ = ⟨(c : Int), t⟩ := by
  have hsign : Int.sign (t : Int) = 1 := by
    rcases t with _ | t
    · omega
    · simp [Int.sign]
  simp [JsNum.div, hsign]

/-- The high-frequency threshold test, read in `ℚ`:
`count > Math.max(10, totalEntries * 0.1)`. -/
theorem hf_threshold_iff (t c : Nat) :
    ((JsNum.max ⟨10, 1⟩ (JsNum.mul ⟨(t : Int), 1⟩ ⟨1, 10⟩)).blt ⟨(c : Int), 1⟩ = true) ↔
      Max.max 10 ((t : ℚ) * 0.1) < (c : ℚ) := by
  have hmul : JsNum.mul ⟨(t : Int), 1⟩ ⟨1, 10⟩ = ⟨(t : Int), 10⟩ := by
    simp [JsNum.mul]
  rw [hmul,
    JsNum.blt_iff _ _ (@JsNum.den_max_pos ⟨10, 1⟩ ⟨(t : Int), 10⟩
      (by norm_num) (by norm_num)) (by norm_num),
    JsNum.toRat_max _ _ (by norm_num) (by norm_num)]
  have h1 : (JsNum.toRat ⟨10, 1⟩) = 10 := by norm_num [JsNum.toRat]
  have h2 : (JsNum.toRat ⟨(t : Int), 10⟩) = (t : ℚ) * 0.1 := by
    rw [JsNum.toRat]
    push_cast
    ring_nf
  have h3 : (JsNum.toRat ⟨(c : Int), 1⟩) = (c : ℚ) := by norm_num [JsNum.toRat]
  rw [h1, h2, h3]

/-- The unusual-status-code threshold test, read in `ℚ`:
`count > totalEntries * 0.05`. -/
theorem status_threshold_iff (t c : Nat) :
    ((JsNum.mul ⟨(t : Int), 1⟩ ⟨5, 100⟩).blt ⟨(c : Int), 1⟩ = true) ↔
      (t : ℚ) * 0.05 < (c : ℚ) := by
  have hmul : JsNum.mul ⟨(t : Int), 1⟩ ⟨5, 100⟩ = ⟨(t : Int) * 5, 100⟩ := by
    simp [JsNum.mul]
  rw [hmul, JsNum.blt_iff _ _ (by norm_num) (by norm_num)]
  have h2 : (JsNum.toRat ⟨(t : Int) * 5, 100⟩) = (t : ℚ) * 0.05 := by
    rw [JsNum.toRat]
    push_cast
    ring_nf
  have h3 : (JsNum.toRat ⟨(c : Int), 1⟩) = (c : ℚ) := by norm_num [JsNum.toRat]
  rw [h2, h3]

/-- The high-frequency confidence, read in `ℚ`:
`Math.min(0.9, count / totalEntries)`. -/
theorem hf_confidence_toRat (c t : Nat) (ht : 0 < t) :
    (JsNum.min ⟨9, 10⟩ (JsNum.div ⟨(c : Int), 1⟩ ⟨(t : Int), 1⟩)).toRat =
      Min.min 0.9 ((c : ℚ) / (t : ℚ)) := by
  rw [JsNum.div_nat c t ht, JsNum.toRat_min _ _ (by norm_num) (by simpa using ht)]
  have h1 : (JsNum.toRat ⟨9, 10⟩) = 0.9 := by norm_num [JsNum.toRat]
  have h2 : (JsNum.toRat ⟨(c : Int), t⟩) = (c : ℚ) / (t : ℚ) := by
    rw [JsNum.toRat]
    push_cast
    ring
  rw [h1, h2]

/-! ## The three anomaly sections -/

theorem performStatisticalAnalysis_anomalies (env : JsEnv) (entries : List Entry) :
    (performStatisticalAnalysis env entries).anomalies =
      highFrequencyAnomalies (tally entryIpKey entries) entries.length ++
        unusualStatusCodeAnomalies (tally entryStatusKey entries) entries.length ++
        suspiciousUserAgentAnomalies (tally entryUaKey entries) := by
  have h : (performStatisticalAnalysis env entries).anomalies =
      highFrequencyAnomalies (buildPatterns env entries).ipFrequency entries.length ++
        unusualStatusCodeAnomalies (buildPatterns env entries).statusCodes entries.length ++
        suspiciousUserAgentAnomalies (buildPatterns env entries).userAgents := rfl
  rw [h, buildPatterns_ipFrequency, buildPatterns_statusCodes, buildPatterns_userAgents]

theorem mem_highFrequencyAnomalies {tbl : List (String × Nat)} {total : Nat}
    {a : StatAnomaly} (h : a ∈ highFrequencyAnomalies tbl total) :
    ∃ ip count, (ip, count) ∈ tbl ∧
      ((JsNum.max ⟨10, 1⟩ (JsNum.mul ⟨(total : Int), 1⟩ ⟨1, 10⟩)).blt
          ⟨(count : Int), 1⟩ = true) ∧
      a.type = "high_frequency_ip" ∧ a.ip = some ip ∧ a.count = count ∧
      a.confidence =
        JsNum.min ⟨9, 10⟩ (JsNum.div ⟨(count : Int), 1⟩ ⟨(total : Int), 1⟩) := by
  simp only [highFrequencyAnomalies] at h
  obtain ⟨kv, hmem, heq⟩ := List.mem_filterMap.mp h
  by_cases hcond :
      (JsNum.max ⟨10, 1⟩ (JsNum.mul ⟨(total : Int), 1⟩ ⟨1, 10⟩)).blt
        ⟨(kv.2 : Int), 1⟩ = true
  · rw [if_pos hcond] at heq
    obtain rfl := Option.some.inj heq
    exact ⟨kv.1, kv.2, by simpa using hmem, hcond, rfl, rfl, rfl, rfl⟩
  · rw [if_neg hcond] at heq
    cases heq

theorem highFrequencyAnomalies_intro {tbl : List (String × Nat)} {total : Nat}
    {ip : String} {count : Nat} (hmem : (ip, count) ∈ tbl)
    (hcond : (JsNum.max ⟨10, 1⟩ (JsNum.mul ⟨(total : Int), 1⟩ ⟨1, 10⟩)).blt
        ⟨(count : Int), 1⟩ = true) :
    ∃ a ∈ highFrequencyAnomalies tbl total,
      a.type = "high_frequency_ip" ∧ a.ip = some ip := by
  simp only [highFrequencyAnomalies]
  refine ⟨{ type := "high_frequency_ip", ip := some ip, count := count,
            percentage := some (toFixed2 ((JsNum.div ⟨(count : Int), 1⟩
              ⟨(total : Int), 1⟩).mul ⟨100, 1⟩)),
            confidence := JsNum.min ⟨9, 10⟩
              (JsNum.div ⟨(count : Int), 1⟩ ⟨(total : Int), 1⟩),
            reason := "IP " ++ ip ++ " made " ++ toString count ++ " requests ("
              ++ toFixed2 ((JsNum.div ⟨(count : Int), 1⟩ ⟨(total : Int), 1⟩).mul ⟨100, 1⟩)
              ++ "% of total traffic)" },
          List.mem_filterMap.mpr ⟨(ip, count), hmem, ?_⟩, rfl, rfl⟩
  dsimp only
  rw [if_pos hcond]

theorem mem_unusualStatusCodeAnomalies_type {tbl : List (Int × Nat)} {total : Nat}
    {a : StatAnomaly} (h : a ∈ unusualStatusCodeAnomalies tbl total) :
    a.type = "unusual_status_code" := by
  simp only [unusualStatusCodeAnomalies] at h
  obtain ⟨kv, _, heq⟩ := List.mem_filterMap.mp h
  by_cases hcond : (!commonStatusCodes.contains kv.1
      && (JsNum.mul ⟨(total : Int), 1⟩ ⟨5, 100⟩).blt ⟨(kv.2 : Int), 1⟩) = true
  · rw [if_pos hcond] at heq
    obtain rfl := Option.some.inj heq
    rfl
  · rw [if_neg hcond] at heq
    cases heq

theorem mem_suspiciousUserAgentAnomalies {tbl : List (String × Nat)} {a : StatAnomaly}
    (h : a ∈ suspiciousUserAgentAnomalies tbl) :
    ∃ ua count, (ua, count) ∈ tbl ∧ isSuspiciousUserAgent ua = true ∧
      a.type = "suspicious_user_agent" ∧ a.user_agent = some ua ∧ a.count = count ∧
      a.confidence = ⟨85, 100⟩ := by
  simp only [suspiciousUserAgentAnomalies] at h
  obtain ⟨kv, hmem, heq⟩ := List.mem_filterMap.mp h
  by_cases hcond : isSuspiciousUserAgent kv.1 = true
  · rw [if_pos hcond] at heq
    obtain rfl := Option.some.inj heq
    exact ⟨kv.1, kv.2, by simpa using hmem, hcond, rfl, rfl, rfl, rfl⟩
  · rw [if_neg hcond] at heq
    cases heq

theorem suspiciousUserAgentAnomalies_intro {tbl : List (String × Nat)} {ua : String}
    {count : Nat} (hmem : (ua, count) ∈ tbl) (hcond : isSuspiciousUserAgent ua = true) :
    ∃ a ∈ suspiciousUserAgentAnomalies tbl,
      a.type = "suspicious_user_agent" ∧ a.user_agent = some ua ∧
        a.confidence = ⟨85, 100⟩ := by
  simp only [suspiciousUserAgentAnomalies]
  refine ⟨{ type := "suspicious_user_agent", user_agent := some ua, count := count,
            confidence := ⟨85, 100⟩,
            reason := "Suspicious user agent detected: " ++ ua },
          List.mem_filterMap.mpr ⟨(ua, count), hmem, ?_⟩, rfl, rfl, rfl⟩
  dsimp only
  rw [if_pos hcond]

theorem pairwise_rank_of_const {l : List StatAnomaly} {n : Nat}
    (h : ∀ x ∈ l, anomalyTypeRank x.type = n) :
    l.Pairwise fun a b => anomalyTypeRank a.type ≤ anomalyTypeRank b.type := by
  induction l with
  | nil => exact List.Pairwise.nil
  | cons a t ih =>
    refine List.Pairwise.cons ?_ (ih fun x hx => h x (List.mem_cons_of_mem _ hx))
    intro b hb
    rw [h a (List.mem_cons_self _ _), h b (List.mem_cons_of_mem _ hb)]

theorem highFrequencyAnomalies_rank {tbl : List (String × Nat)} {total : Nat}
    {a : StatAnomaly} (h : a ∈ highFrequencyAnomalies tbl total) :
    anomalyTypeRank a.type = 0 := by
  obtain ⟨_, _, _, _, ht, _, _, _⟩ := mem_highFrequencyAnomalies h
  rw [ht]
  decide

theorem unusualStatusCodeAnomalies_rank {tbl : List (Int × Nat)} {total : Nat}
    {a : StatAnomaly} (h : a ∈ unusualStatusCodeAnomalies tbl total) :
    anomalyTypeRank a.type = 1 := by
  rw [mem_unusualStatusCodeAnomalies_type h]
  decide

theorem suspiciousUserAgentAnomalies_rank {tbl : List (String × Nat)}
    {a : StatAnomaly} (h : a ∈ suspiciousUserAgentAnomalies tbl) :
    anomalyTypeRank a.type = 2 := by
  obtain ⟨_, _, _, _, ht, _, _, _⟩ := mem_suspiciousUserAgentAnomalies h
  rw [ht]
  decide

theorem highFrequencyAnomalies_ips (tbl : List (String × Nat)) (total : Nat) :
    (highFrequencyAnomalies tbl total).filterMap (fun a => a.ip) =
      (tbl.filter fun kv =>
        (JsNum.max ⟨10, 1⟩ (JsNum.mul ⟨(total : Int), 1⟩ ⟨1, 10⟩)).blt
          ⟨(kv.2 : Int), 1⟩).map Prod.fst := by
  induction tbl with
  | nil => rfl
  | cons kv rest ih =>
    by_cases hcond :
        ((JsNum.max ⟨10, 1⟩ (JsNum.mul ⟨(total : Int), 1⟩ ⟨1, 10⟩)).blt
          ⟨(kv.2 : Int), 1⟩) = true
    · simp only [highFrequencyAnomalies] at ih ⊢
      simp [List.filterMap_cons, List.filter_cons, hcond, ih]
    · simp only [highFrequencyAnomalies] at ih ⊢
      simp [List.filterMap_cons, List.filter_cons, hcond, ih]

theorem filter_map_fst_of_values {α : Type} {m : List (α × Nat)} {g : α → Nat}
    (hval : ∀ kv ∈ m, kv.2 = g kv.1) (p : α → Nat → Bool) :
    (m.filter fun kv => p kv.1 kv.2).map Prod.fst =
      (m.map Prod.fst).filter fun k => p k (g k) := by
  induction m with
  | nil => rfl
  | cons kv rest ih =>
    have hv : kv.2 = g kv.1 := hval kv (List.mem_cons_self _ _)
    have ih' := ih fun x hx => hval x (List.mem_cons_of_mem _ hx)
    by_cases hp : p kv.1 kv.2 = true
    · have hp' : p kv.1 (g kv.1) = true := hv ▸ hp
      simp [List.filter_cons, hp, hp', ih']
    · have hp' : ¬ p kv.1 (g kv.1) = true := fun hh => hp (hv ▸ hh)
      simp [List.filter_cons, hp, hp', ih']

/-! ## Claim theorems -/

/-- C2: the statistical engine flags a source IP as a `high_frequency_ip`
anomaly iff its occurrence count strictly exceeds
`max(10, 0.1 * totalRecords)`, with confidence `min(0.9, count / total)`;
in the concrete 100-record boundary set, the IP with count exactly 10 is
not flagged and the IP with count 11 is flagged with confidence 11/100. -/
theorem claim_C2_high_frequency_rule :
    (∀ (env : JsEnv) (entries : List Entry) (ip : String),
      ((∃ a ∈ (performStatisticalAnalysis env entries).anomalies,
          a.type = "high_frequency_ip" ∧ a.ip = some ip) ↔
        Max.max 10 ((entries.length : ℚ) * 0.1) <
          ((entries.filterMap entryIpKey).count ip : ℚ)) ∧
      ∀ a ∈ (performStatisticalAnalysis env entries).anomalies,
        a.type = "high_frequency_ip" → a.ip = some ip →
          a.count = (entries.filterMap entryIpKey).count ip ∧
            a.confidence.toRat =
              Min.min 0.9
                (((entries.filterMap entryIpKey).count ip : ℚ) /
                  (entries.length : ℚ))) ∧
    (¬ ∃ a ∈ (performStatisticalAnalysis env0 boundaryEntries).anomalies,
        a.ip = some "8.8.8.8") ∧
    (∃ a ∈ (performStatisticalAnalysis env0 boundaryEntries).anomalies,
      a.type = "high_frequency_ip" ∧ a.ip = some "9.9.9.9" ∧ a.count = 11 ∧
        a.confidence = ⟨11, 100⟩) ∧
    (⟨11, 100⟩ : JsNum).toRat = 11 / 100 := by
  refine ⟨?_, by decide, by decide, by norm_num [JsNum.toRat]⟩
  intro env entries ip
  have hanoms := performStatisticalAnalysis_anomalies env entries
  constructor
  · constructor
    · rintro ⟨a, hmem, htype, hip⟩
      rw [hanoms] at hmem
      rcases List.mem_append.mp hmem with hmem1 | hmemC
      · rcases List.mem_append.mp hmem1 with hA | hB
        · obtain ⟨ip1, c1, htbl, hcond, _, hip1, _, _⟩ := mem_highFrequencyAnomalies hA
          have hipeq : ip1 = ip := by
            rw [hip1] at hip
            exact Option.some.inj hip
          subst hipeq
          have hc1 : c1 = (entries.filterMap entryIpKey).count ip1 := tally_mem_count htbl
          rw [hc1] at hcond
          exact (hf_threshold_iff entries.length _).mp hcond
        · have ht := mem_unusualStatusCodeAnomalies_type hB
          rw [ht] at htype
          exact absurd htype (by decide)
      · obtain ⟨_, _, _, _, ht, _, _, _⟩ := mem_suspiciousUserAgentAnomalies hmemC
        rw [ht] at htype
        exact absurd htype (by decide)
    · intro hlt
      have hc0 : (entries.filterMap entryIpKey).count ip ≠ 0 := by
        intro h0
        rw [h0] at hlt
        have h10 : (10 : ℚ) ≤ Max.max 10 ((entries.length : ℚ) * 0.1) := le_max_left _ _
        push_cast at hlt
        linarith
      have hget : mapGet (tally entryIpKey entries) ip =
          some ((entries.filterMap entryIpKey).count ip) := by
        rw [tally_get]
        simp [hc0]
      have htbl := mem_of_mapGet_eq_some hget
      have hcond := (hf_threshold_iff entries.length _).mpr hlt
      obtain ⟨a, hamem, ht, hi⟩ := highFrequencyAnomalies_intro htbl hcond
      refine ⟨a, ?_, ht, hi⟩
      rw [hanoms]
      exact List.mem_append_left _ (List.mem_append_left _ hamem)
  · intro a hmem htype hip
    rw [hanoms] at hmem
    rcases List.mem_append.mp hmem with hmem1 | hmemC
    · rcases List.mem_append.mp hmem1 with hA | hB
      · obtain ⟨ip1, c1, htbl, hcond, _, hip1, hcount, hconf⟩ :=
          mem_highFrequencyAnomalies hA
        have hipeq : ip1 = ip := by
          rw [hip1] at hip
          exact Option.some.inj hip
        subst hipeq
        have hc1 : c1 = (entries.filterMap entryIpKey).count ip1 := tally_mem_count htbl
        have hcpos : 0 < c1 := by
          by_contra h0
          have hc1z : c1 = 0 := by omega
          rw [hc1z, hf_threshold_iff] at hcond
          have h10 : (10 : ℚ) ≤ Max.max 10 ((entries.length : ℚ) * 0.1) := le_max_left _ _
          push_cast at hcond
          linarith
        have hle : c1 ≤ entries.length := by
          rw [hc1]
          exact le_trans (List.count_le_length _ _) (List.length_filterMap_le _ _)
        have htpos : 0 < entries.length := lt_of_lt_of_le hcpos hle
        refine ⟨by rw [hcount, hc1], ?_⟩
        rw [hconf, hf_confidence_toRat c1 entries.length htpos, hc1]
      · have ht := mem_unusualStatusCodeAnomalies_type hB
        rw [ht] at htype
        exact absurd htype (by decide)
    · obtain ⟨_, _, _, _, ht, _, _, _⟩ := mem_suspiciousUserAgentAnomalies hmemC
      rw [ht] at htype
      exact absurd htype (by decide)

/-- Witness for C2: the universal rule evaluated on the concrete boundary
set at the flagged IP. -/
theorem claim_C2_high_frequency_rule_witness :
    (∃ a ∈ (performStatisticalAnalysis env0 boundaryEntries).anomalies,
        a.type = "high_frequency_ip" ∧ a.ip = some "9.9.9.9") ∧
    ({ type := "high_frequency_ip", ip := some "9.9.9.9", count := 11,
       percentage := some "11.00", confidence := ⟨11, 100⟩,
       reason := "IP 9.9.9.9 made 11 requests (11.00% of total traffic)" } :
        StatAnomaly).count = (boundaryEntries.filterMap entryIpKey).count "9.9.9.9" := by
  constructor
  · refine ((claim_C2_high_frequency_rule.1 env0 boundaryEntries "9.9.9.9").1).mpr ?_
    have h1 : boundaryEntries.length = 100 := by decide
    have h2 : (boundaryEntries.filterMap entryIpKey).count "9.9.9.9" = 11 := by decide
    rw [h1, h2]
    norm_num
  · exact ((claim_C2_high_frequency_rule.1 env0 boundaryEntries "9.9.9.9").2 _
      (by decide) (by decide) (by decide)).1

/-- C5: when the external model call fails, the analysis still completes
and returns the statistical anomalies unchanged as the final anomaly list,
with summary "AI analysis unavailable, using statistical analysis only",
confidence 0.5, and recommendations
["Enable AI analysis for enhanced threat detection"]. -/
theorem claim_C5_ai_failure_fallback (env : JsEnv) (entries : List Entry)
    (h : entries ≠ []) :
    (analyzeAnomalies env entries AIOutcome.fail).anomalies =
        (performStatisticalAnalysis env entries).anomalies.map Sum.inl ∧
    (analyzeAnomalies env entries AIOutcome.fail).summary =
        Json.str "AI analysis unavailable, using statistical analysis only" ∧
    (analyzeAnomalies env entries AIOutcome.fail).confidence = Json.num ⟨5, 10⟩ ∧
    (⟨5, 10⟩ : JsNum).toRat = 0.5 ∧
    (analyzeAnomalies env entries AIOutcome.fail).recommendations =
        some (Json.arr [Json.str "Enable AI analysis for enhanced threat detection"]) := by
  have hlen0 : ¬ entries.length = 0 := fun h0 => h (List.length_eq_zero.mp h0)
  have hsample : ¬ (selectSampleEntries entries
      (performStatisticalAnalysis env entries).anomalies).length = 0 := fun h0 =>
    selectSampleEntries_ne_nil _ h (List.length_eq_zero.mp h0)
  refine ⟨?_, ?_, ?_, by norm_num [JsNum.toRat], ?_⟩ <;>
    simp [analyzeAnomalies, hlen0, performAIAnalysis, hsample, aiUnavailableResult]

/-- Witness for C5: the failure fallback evaluated on a one-record set. -/
theorem claim_C5_ai_failure_fallback_witness :
    (analyzeAnomalies env0 [sampleEntry] AIOutcome.fail).anomalies =
        (performStatisticalAnalysis env0 [sampleEntry]).anomalies.map Sum.inl ∧
    (analyzeAnomalies env0 [sampleEntry] AIOutcome.fail).summary =
        Json.str "AI analysis unavailable, using statistical analysis only" ∧
    (analyzeAnomalies env0 [sampleEntry] AIOutcome.fail).confidence = Json.num ⟨5, 10⟩ ∧
    (⟨5, 10⟩ : JsNum).toRat = 0.5 ∧
    (analyzeAnomalies env0 [sampleEntry] AIOutcome.fail).recommendations =
        some (Json.arr [Json.str "Enable AI analysis for enhanced threat detection"]) :=
  claim_C5_ai_failure_fallback env0 [sampleEntry] (by decide)

/-- C7: every user agent string containing one of the fixed substrings
case-insensitively is flagged as a `suspicious_user_agent` anomaly with
confidence exactly 0.85, independent of its frequency; both spellings
"CURL/7.68.0" and "curl/7.68.0" are suspicious. -/
theorem claim_C7_suspicious_user_agent :
    (∀ (env : JsEnv) (entries : List Entry) (ua : String),
      isSuspiciousUserAgent ua = true →
      (∃ e ∈ entries, entryUaKey e = some ua) →
      ∃ a ∈ (performStatisticalAnalysis env entries).anomalies,
        a.type = "suspicious_user_agent" ∧ a.user_agent = some ua ∧
          a.confidence = ⟨85, 100⟩) ∧
    (∀ (env : JsEnv) (entries : List Entry),
      ∀ a ∈ (performStatisticalAnalysis env entries).anomalies,
        a.type = "suspicious_user_agent" → a.confidence = ⟨85, 100⟩) ∧
    isSuspiciousUserAgent "CURL/7.68.0" = true ∧
    isSuspiciousUserAgent "curl/7.68.0" = true ∧
    (⟨85, 100⟩ : JsNum).toRat = 0.85 := by
  refine ⟨?_, ?_, by decide, by decide, by norm_num [JsNum.toRat]⟩
  · rintro env entries ua hsusp ⟨e, hemem, hkey⟩
    have hmemFM : ua ∈ entries.filterMap entryUaKey :=
      List.mem_filterMap.mpr ⟨e, hemem, hkey⟩
    have hc0 : (entries.filterMap entryUaKey).count ua ≠ 0 := by
      have := List.count_pos_iff.mpr hmemFM
      omega
    have hget : mapGet (tally entryUaKey entries) ua =
        some ((entries.filterMap entryUaKey).count ua) := by
      rw [tally_get]
      simp [hc0]
    have htbl := mem_of_mapGet_eq_some hget
    obtain ⟨a, hamem, h1, h2, h3⟩ := suspiciousUserAgentAnomalies_intro htbl hsusp
    refine ⟨a, ?_, h1, h2, h3⟩
    rw [performStatisticalAnalysis_anomalies]
    exact List.mem_append_right _ hamem
  · intro env entries a hmem htype
    rw [performStatisticalAnalysis_anomalies] at hmem
    rcases List.mem_append.mp hmem with hmem1 | hmemC
    · rcases List.mem_append.mp hmem1 with hA | hB
      · obtain ⟨_, _, _, _, ht, _, _, _⟩ := mem_highFrequencyAnomalies hA
        rw [ht] at htype
        exact absurd htype (by decide)
      · have ht := mem_unusualStatusCodeAnomalies_type hB
        rw [ht] at htype
        exact absurd htype (by decide)
    · obtain ⟨_, _, _, _, _, _, _, hc⟩ := mem_suspiciousUserAgentAnomalies hmemC
      exact hc

/-- Witness for C7: the rule evaluated on a one-record set whose user
agent is the upper-case curl spelling. -/
theorem claim_C7_suspicious_user_agent_witness :
    ∃ a ∈ (performStatisticalAnalysis env0 [curlEntry]).anomalies,
      a.type = "suspicious_user_agent" ∧ a.user_agent = some "CURL/7.68.0" ∧
        a.confidence = ⟨85, 100⟩ :=
  claim_C7_suspicious_user_agent.1 env0 [curlEntry] "CURL/7.68.0" (by decide)
    ⟨curlEntry, by decide, by decide⟩

/-- C9: the statistical output order is deterministic — every anomaly has
one of the three statistical types, the sequence is sorted by type rank
(all high-frequency-IP anomalies, then unusual-status-code, then
suspicious-user-agent), and the high-frequency section lists IPs exactly
in the order of their first occurrence in the input (the IP table's
insertion order), filtered by the threshold. -/
theorem claim_C9_output_order (env : JsEnv) (entries : List Entry) :
    ((performStatisticalAnalysis env entries).anomalies.Pairwise
      fun a b => anomalyTypeRank a.type ≤ anomalyTypeRank b.type) ∧
    (∀ a ∈ (performStatisticalAnalysis env entries).anomalies,
      a.type = "high_frequency_ip" ∨ a.type = "unusual_status_code" ∨
        a.type = "suspicious_user_agent") ∧
    ((performStatisticalAnalysis env entries).anomalies.filter
        (fun a => a.type = "high_frequency_ip")).filterMap (fun a => a.ip) =
      (firstOccs (entries.filterMap entryIpKey)).filter fun ip =>
        (JsNum.max ⟨10, 1⟩ (JsNum.mul ⟨(entries.length : Int), 1⟩ ⟨1, 10⟩)).blt
          ⟨((entries.filterMap entryIpKey).count ip : Int), 1⟩ := by
  rw [performStatisticalAnalysis_anomalies]
  refine ⟨?_, ?_, ?_⟩
  · rw [List.pairwise_append]
    refine ⟨?_, ?_, ?_⟩
    · rw [List.pairwise_append]
      refine ⟨pairwise_rank_of_const (fun x hx => highFrequencyAnomalies_rank hx),
        pairwise_rank_of_const (fun x hx => unusualStatusCodeAnomalies_rank hx), ?_⟩
      intro a ha b hb
      rw [highFrequencyAnomalies_rank ha, unusualStatusCodeAnomalies_rank hb]
      omega
    · exact pairwise_rank_of_const fun x hx => suspiciousUserAgentAnomalies_rank hx
    · intro a ha b hb
      rw [suspiciousUserAgentAnomalies_rank hb]
      rcases List.mem_append.mp ha with hA | hB
      · rw [highFrequencyAnomalies_rank hA]; omega
      · rw [unusualStatusCodeAnomalies_rank hB]; omega
  · intro a hmem
    rcases List.mem_append.mp hmem with hmem1 | hmemC
    · rcases List.mem_append.mp hmem1 with hA | hB
      · obtain ⟨_, _, _, _, ht, _, _, _⟩ := mem_highFrequencyAnomalies hA
        exact Or.inl ht
      · exact Or.inr (Or.inl (mem_unusualStatusCodeAnomalies_type hB))
    · obtain ⟨_, _, _, _, ht, _, _, _⟩ := mem_suspiciousUserAgentAnomalies hmemC
      exact Or.inr (Or.inr ht)
  · rw [List.filter_append, List.filter_append]
    have hAfull :
        (highFrequencyAnomalies (tally entryIpKey entries) entries.length).filter
            (fun a => a.type = "high_frequency_ip") =
          highFrequencyAnomalies (tally entryIpKey entries) entries.length := by
      refine List.filter_eq_self.mpr fun a ha => ?_
      obtain ⟨_, _, _, _, ht, _, _, _⟩ := mem_highFrequencyAnomalies ha
      simp [ht]
    have hBnil :
        (unusualStatusCodeAnomalies (tally entryStatusKey entries)
            entries.length).filter (fun a => a.type = "high_frequency_ip") = [] := by
      refine List.filter_eq_nil_iff.mpr fun a ha => ?_
      simp [mem_unusualStatusCodeAnomalies_type ha]
    have hCnil :
        (suspiciousUserAgentAnomalies (tally entryUaKey entries)).filter
            (fun a => a.type = "high_frequency_ip") = [] := by
      refine List.filter_eq_nil_iff.mpr fun a ha => ?_
      obtain ⟨_, _, _, _, ht, _, _, _⟩ := mem_suspiciousUserAgentAnomalies ha
      simp [ht]
    rw [hAfull, hBnil, hCnil, List.append_nil, List.append_nil,
      highFrequencyAnomalies_ips]
    have hval : ∀ kv ∈ tally entryIpKey entries,
        kv.2 = (fun k => (entries.filterMap entryIpKey).count k) kv.1 :=
      fun kv hkv => tally_mem_count (by simpa using hkv)
    have happ := @filter_map_fst_of_values String (tally entryIpKey entries)
      (fun k => (entries.filterMap entryIpKey).count k) hval fun k c =>
      (JsNum.max ⟨10, 1⟩ (JsNum.mul ⟨(entries.length : Int), 1⟩ ⟨1, 10⟩)).blt
        ⟨(c : Int), 1⟩
    rw [tally_keys] at happ
    exact happ

/-- Witness for C9: the ordering facts evaluated on the concrete boundary
set. -/
theorem claim_C9_output_order_witness :
    (performStatisticalAnalysis env0 boundaryEntries).anomalies.Pairwise
      (fun a b => anomalyTypeRank a.type ≤ anomalyTypeRank b.type) :=
  (claim_C9_output_order env0 boundaryEntries).1

/-! ## The parser loop -/

theorem processLines_spec (lines : List (List Char)) (i : Nat) :
    (processLines lines i).2.1 = (processLines lines i).1.length ∧
    (processLines lines i).2.1 + (processLines lines i).2.2 =
      (lines.filter fun l => !(trimChars l).isEmpty).length := by
  induction lines generalizing i with
  | nil => simp [processLines]
  | cons line rest ih =>
    obtain ⟨h1, h2⟩ := ih (i + 1)
    by_cases hb : (trimChars line).isEmpty = true
    · simpa [processLines, hb, List.filter_cons] using ⟨h1, h2⟩
    · cases hp : parseLine line (i + 1) <;>
        simp [processLines, hb, hp, List.filter_cons, h1] <;> omega

theorem processLines_blank (lines : List (List Char)) (i : Nat)
    (h : ∀ l ∈ lines, (trimChars l).isEmpty = true) :
    processLines lines i = ([], 0, 0) := by
  induction lines generalizing i with
  | nil => rfl
  | cons line rest ih =>
    have hb := h line (List.mem_cons_self _ _)
    have hrest := ih (i + 1) fun l hl => h l (List.mem_cons_of_mem _ hl)
    simp [processLines, hb, hrest]

/-- C10 (amended C1, second half): with the parser chosen explicitly,
blank-only content parses to zero valid and zero invalid entries. -/
theorem claim_C1_blank_input_amended (content filename : String)
    (h : ∀ l ∈ splitOnNl content.data, (trimChars l).isEmpty = true) :
    parseLogFile content filename =
      Except.error
        "Unable to detect log format. Please ensure the file is in a supported format." ∧
    parseLogFileWithParser content "cloudflare_one" filename =
      Except.ok
        { entries := [],
          metadata := { totalLines := (splitOnNl content.data).length,
                        validEntries := 0, invalidEntries := 0,
                        filename := filename, logType := "cloudflare_one" } } := by
  have hfilter :
      (splitOnNl content.data).filter (fun l => !(trimChars l).isEmpty) = [] :=
    List.filter_eq_nil_iff.mpr fun l hl => by simp [h l hl]
  have hval : validateFormat content = false := by
    simp [validateFormat, hfilter]
  have hpl := processLines_blank (splitOnNl content.data) 0 h
  constructor
  · simp [parseLogFile, autoDetectParser, hval]
  · simp [parseLogFileWithParser, hpl]

/-- Witness for the amended C1: a file of one space-only line and one
empty line. -/
theorem claim_C1_blank_input_amended_witness :
    parseLogFile " \n" "w.log" =
      Except.error
        "Unable to detect log format. Please ensure the file is in a supported format." ∧
    parseLogFileWithParser " \n" "cloudflare_one" "w.log" =
      Except.ok
        { entries := [],
          metadata := { totalLines := (splitOnNl (" \n").data).length,
                        validEntries := 0, invalidEntries := 0,
                        filename := "w.log", logType := "cloudflare_one" } } :=
  claim_C1_blank_input_amended " \n" "w.log" (by decide)

/-- Counterexample to C1 as stated: on empty content, `parseLogFile` does
not return a result at all — no parser validates blank-only content, so it
throws the detection error instead of returning
`validEntries = 0, invalidEntries = 0`. -/
theorem claim_C1_counterexample :
    parseLogFile "" "empty.log" =
      Except.error
        "Unable to detect log format. Please ensure the file is in a supported format." :=
  rfl

/-- C10: whenever `parseLogFile` returns a result, `validEntries` is the
number of returned entries, `validEntries + invalidEntries` is the number
of non-blank lines, and `totalLines` counts all lines, blank ones
included. -/
theorem claim_C10_metadata_consistency (content filename : String) (r : ParseResult)
    (h : parseLogFile content filename = Except.ok r) :
    r.metadata.validEntries = r.entries.length ∧
    r.metadata.validEntries + r.metadata.invalidEntries =
      ((splitOnNl content.data).filter fun l => !(trimChars l).isEmpty).length ∧
    r.metadata.totalLines = (splitOnNl content.data).length := by
  have hspec := processLines_spec (splitOnNl content.data) 0
  rw [parseLogFile] at h
  cases hdet : autoDetectParser content with
  | none =>
    rw [hdet] at h
    cases h
  | some lt =>
    rw [hdet] at h
    injection h with h1
    subst h1
    exact ⟨hspec.1, hspec.2, rfl⟩

/-- Witness for C10: the metadata equations evaluated on a concrete
one-line Cloudflare One file. -/
theorem claim_C10_metadata_consistency_witness :
    witnessParseResult.metadata.validEntries = witnessParseResult.entries.length ∧
    witnessParseResult.metadata.validEntries +
        witnessParseResult.metadata.invalidEntries =
      ((splitOnNl witnessLine.data).filter fun l => !(trimChars l).isEmpty).length ∧
    witnessParseResult.metadata.totalLines = (splitOnNl witnessLine.data).length :=
  claim_C10_metadata_consistency witnessLine "logs.jsonl" witnessParseResult rfl

/-! ## The timeline -/

theorem hourStart_idem (t : Int) : hourStart (hourStart t) = hourStart t := by
  unfold hourStart
  rw [Int.mul_fdiv_cancel_left _ (by norm_num)]

theorem mem_mapSet {α β : Type} [DecidableEq α] {m : List (α × β)} {k : α} {v : β}
    {p : α × β} (h : p ∈ mapSet m k v) : p = (k, v) ∨ p ∈ m := by
  induction m with
  | nil => simpa [mapSet] using h
  | cons kv rest ih =>
    obtain ⟨k1, v1⟩ := kv
    by_cases hk : k1 = k
    · simp only [mapSet, if_pos hk, List.mem_cons] at h
      rcases h with h | h
      · exact Or.inl h
      · exact Or.inr (List.mem_cons_of_mem _ h)
    · simp only [mapSet, if_neg hk, List.mem_cons] at h
      rcases h with h | h
      · exact Or.inr (List.mem_cons.mpr (Or.inl h))
      · rcases ih h with h2 | h2
        · exact Or.inl h2
        · exact Or.inr (List.mem_cons_of_mem _ h2)

theorem timelineStep_count_sum (m : List (Int × TimelineBucket)) (e : Entry) :
    ((timelineStep m e).map fun p => p.2.count).sum =
      ((m.map fun p => p.2.count).sum) + (if e.timestamp.isSome then 1 else 0) := by
  cases ht : e.timestamp with
  | none => simp [timelineStep, ht]
  | some t =>
    simp only [timelineStep, ht, Option.isSome_some, if_true]
    induction m with
    | nil => simp [mapSet, mapGet]
    | cons kv rest ih =>
      obtain ⟨k1, b1⟩ := kv
      by_cases hk : k1 = hourStart t
      · simp [mapSet, mapGet, hk]
        omega
      · simp only [mapSet, mapGet, if_neg hk, List.map_cons, List.sum_cons] at ih ⊢
        rw [ih]
        omega

theorem timelineStep_anom_sum (m : List (Int × TimelineBucket)) (e : Entry) :
    ((timelineStep m e).map fun p => p.2.anomalies).sum =
      ((m.map fun p => p.2.anomalies).sum) +
        (if e.timestamp.isSome then (if e.is_anomaly then 1 else 0) else 0) := by
  cases ht : e.timestamp with
  | none => simp [timelineStep, ht]
  | some t =>
    simp only [timelineStep, ht, Option.isSome_some, if_true]
    induction m with
    | nil => simp [mapSet, mapGet]
    | cons kv rest ih =>
      obtain ⟨k1, b1⟩ := kv
      by_cases hk : k1 = hourStart t
      · simp [mapSet, mapGet, hk]
        omega
      · simp only [mapSet, mapGet, if_neg hk, List.map_cons, List.sum_cons] at ih ⊢
        rw [ih]
        omega

theorem timeline_fold_count_sum (entries : List Entry) :
    ∀ m, (((entries.foldl timelineStep m).map fun p => p.2.count).sum) =
      ((m.map fun p => p.2.count).sum) +
        (entries.filter fun e => e.timestamp.isSome).length := by
  induction entries with
  | nil => intro m; simp
  | cons e rest ih =>
    intro m
    simp only [List.foldl_cons, List.filter_cons]
    rw [ih (timelineStep m e), timelineStep_count_sum]
    cases he : e.timestamp <;> simp [he] <;> omega

theorem timeline_fold_anom_sum (entries : List Entry) :
    ∀ m, (((entries.foldl timelineStep m).map fun p => p.2.anomalies).sum) =
      ((m.map fun p => p.2.anomalies).sum) +
        (entries.filter fun e => e.timestamp.isSome && e.is_anomaly).length := by
  induction entries with
  | nil => intro m; simp
  | cons e rest ih =>
    intro m
    simp only [List.foldl_cons, List.filter_cons]
    rw [ih (timelineStep m e), timelineStep_anom_sum]
    cases he : e.timestamp <;> cases ha : e.is_anomaly <;> simp [he, ha] <;> omega

theorem timeline_fold_wf (entries : List Entry) :
    ∀ m, (∀ p ∈ m, p.2.timestamp = p.1 ∧ hourStart p.1 = p.1) →
      ∀ p ∈ entries.foldl timelineStep m, p.2.timestamp = p.1 ∧ hourStart p.1 = p.1 := by
  induction entries with
  | nil => intro m hm; simpa using hm
  | cons e rest ih =>
    intro m hm
    refine ih (timelineStep m e) ?_
    intro p hp
    cases ht : e.timestamp with
    | none => exact hm p (by simpa [timelineStep, ht] using hp)
    | some t =>
      simp only [timelineStep, ht] at hp
      rcases mem_mapSet hp with rfl | hpm
      · refine ⟨?_, hourStart_idem t⟩
        cases hg : mapGet m (hourStart t) with
        | none => simp [hg]
        | some b =>
          have hb := (hm (hourStart t, b) (mem_of_mapGet_eq_some hg)).1
          simp only [hg, Option.getD_some]
          exact hb
      · exact hm p hpm

/-- C8: `generateTimeline` is sorted ascending by hour; its counts sum to
the number of records with a non-null timestamp and its anomaly counts to
the number of anomalous such records; every bucket timestamp is truncated
to a clock hour; and records at 10:05, 10:59 and 11:00 yield exactly the
buckets 10:00 with count 2 and 11:00 with count 1. -/
theorem claim_C8_timeline (entries : List Entry) :
    (generateTimeline entries).Pairwise (fun a b => a.timestamp ≤ b.timestamp) ∧
    ((generateTimeline entries).map TimelineBucket.count).sum =
      (entries.filter fun e => e.timestamp.isSome).length ∧
    ((generateTimeline entries).map TimelineBucket.anomalies).sum =
      (entries.filter fun e => e.timestamp.isSome && e.is_anomaly).length ∧
    (∀ b ∈ generateTimeline entries, hourStart b.timestamp = b.timestamp) ∧
    generateTimeline
        [{ timestamp := some 36300000 }, { timestamp := some 39540000 },
         { timestamp := some 39600000 }] =
      [{ timestamp := 36000000, count := 2, anomalies := 0 },
       { timestamp := 39600000, count := 1, anomalies := 0 }] := by
  have hperm :
      List.Perm
        (List.insertionSort bucketLe ((entries.foldl timelineStep []).map Prod.snd))
        ((entries.foldl timelineStep []).map Prod.snd) :=
    List.perm_insertionSort _ _
  refine ⟨?_, ?_, ?_, ?_, by decide⟩
  · exact List.sorted_insertionSort bucketLe _
  · have hsum := (hperm.map TimelineBucket.count).sum_eq
    rw [List.map_map] at hsum
    have hfold := timeline_fold_count_sum entries []
    simp only [List.map_nil, List.sum_nil, Nat.zero_add] at hfold
    calc ((generateTimeline entries).map TimelineBucket.count).sum
        = ((entries.foldl timelineStep []).map
            (TimelineBucket.count ∘ Prod.snd)).sum := hsum
      _ = (entries.filter fun e => e.timestamp.isSome).length := hfold
  · have hsum := (hperm.map TimelineBucket.anomalies).sum_eq
    rw [List.map_map] at hsum
    have hfold := timeline_fold_anom_sum entries []
    simp only [List.map_nil, List.sum_nil, Nat.zero_add] at hfold
    calc ((generateTimeline entries).map TimelineBucket.anomalies).sum
        = ((entries.foldl timelineStep []).map
            (TimelineBucket.anomalies ∘ Prod.snd)).sum := hsum
      _ = (entries.filter fun e => e.timestamp.isSome && e.is_anomaly).length := hfold
  · intro b hb
    have hb2 : b ∈ (entries.foldl timelineStep []).map Prod.snd := hperm.mem_iff.mp hb
    obtain ⟨p, hp, rfl⟩ := List.mem_map.mp hb2
    have hwf := timeline_fold_wf entries [] (by simp) p hp
    rw [hwf.1]
    exact hwf.2

/-- Witness for C8: the sum and sortedness facts evaluated on three
concrete records at 10:05, 10:59 and 11:00. -/
theorem claim_C8_timeline_witness :
    ((generateTimeline
          [{ timestamp := some 36300000 }, { timestamp := some 39540000 },
           { timestamp := some 39600000 }]).map TimelineBucket.count).sum =
      ([({ timestamp := some 36300000 } : Entry), { timestamp := some 39540000 },
         { timestamp := some 39600000 }].filter fun e => e.timestamp.isSome).length ∧
    generateTimeline
        [{ timestamp := some 36300000 }, { timestamp := some 39540000 },
         { timestamp := some 39600000 }] =
      [{ timestamp := 36000000, count := 2, anomalies := 0 },
       { timestamp := 39600000, count := 1, anomalies := 0 }] :=
  ⟨(claim_C8_timeline
      [{ timestamp := some 36300000 }, { timestamp := some 39540000 },
       { timestamp := some 39600000 }]).2.1,
   (claim_C8_timeline
      [{ timestamp := some 36300000 }, { timestamp := some 39540000 },
       { timestamp := some 39600000 }]).2.2.2.2⟩

/-! ## The merge step of the AI analysis -/

/-- Counterexample to C6 as stated: an inferred anomaly object arriving
through a parsed reply is merged verbatim — its `type`, `description` and
`confidence` fields are left absent, not defaulted. -/
theorem claim_C6_counterexample :
    (performAIAnalysis [sampleEntry] [] (AIOutcome.ok c6content)).anomalies =
      [Sum.inr (Json.obj [])] ∧
    jsField (Json.obj []) "type" = none ∧
    jsField (Json.obj []) "description" = none ∧
    jsField (Json.obj []) "confidence" = none :=
  ⟨rfl, rfl, rfl, rfl⟩

/-- C6 (amended): on a parsed reply with a spreadable `anomalies` field the
merged list is the statistical anomalies followed verbatim by the inferred
objects, with no cross-deduplication and no per-object defaulting, and the
top-level `summary`, `confidence` and `recommendations` are defaulted when
absent. -/
theorem claim_C6_merge_and_defaults_amended (entries : List Entry)
    (statAnoms : List StatAnomaly) (content : String) (inferred : List Json)
    (r : AIResult)
    (hne : selectSampleEntries entries statAnoms ≠ [])
    (hspread : jsSpread (jsField (parseAIResponse content) "anomalies") = some inferred)
    (hr : performAIAnalysis entries statAnoms (AIOutcome.ok content) = r) :
    r.anomalies = statAnoms.map Sum.inl ++ inferred.map Sum.inr ∧
    r.anomalies.take statAnoms.length = statAnoms.map Sum.inl ∧
    r.anomalies.drop statAnoms.length = inferred.map Sum.inr ∧
    (jsField (parseAIResponse content) "summary" = none →
      r.summary = Json.str "AI analysis completed") ∧
    (jsField (parseAIResponse content) "confidence" = none →
      r.confidence = Json.num ⟨7, 10⟩) ∧
    (jsField (parseAIResponse content) "recommendations" = none →
      r.recommendations = Json.arr []) := by
  subst hr
  have hres : performAIAnalysis entries statAnoms (AIOutcome.ok content) =
      { anomalies := statAnoms.map Sum.inl ++ inferred.map Sum.inr,
        summary := jsOrDefault (jsField (parseAIResponse content) "summary")
          (Json.str "AI analysis completed"),
        confidence := jsOrDefault (jsField (parseAIResponse content) "confidence")
          (Json.num ⟨7, 10⟩),
        recommendations := jsOrDefault (jsField (parseAIResponse content) "recommendations")
          (Json.arr []) } := by
    simp only [performAIAnalysis]
    rw [if_neg fun h => hne (List.length_eq_zero.mp h), hspread]
  rw [hres]
  refine ⟨rfl, ?_, ?_, ?_, ?_, ?_⟩
  · rw [List.take_left'
      (show (statAnoms.map Sum.inl).length = statAnoms.length from List.length_map _ _)]
  · rw [List.drop_left'
      (show (statAnoms.map Sum.inl).length = statAnoms.length from List.length_map _ _)]
  · intro h
    simp [jsOrDefault, h]
  · intro h
    simp [jsOrDefault, h]
  · intro h
    simp [jsOrDefault, h]

/-- Witness for the amended C6: the merge facts evaluated on a concrete
parsed reply carrying one empty inferred anomaly. -/
theorem claim_C6_merge_and_defaults_amended_witness :
    c6result.anomalies =
      ([] : List StatAnomaly).map Sum.inl ++ [Json.obj []].map Sum.inr ∧
    c6result.anomalies.take ([] : List StatAnomaly).length =
      ([] : List StatAnomaly).map Sum.inl ∧
    c6result.anomalies.drop ([] : List StatAnomaly).length =
      [Json.obj []].map Sum.inr ∧
    (jsField (parseAIResponse c6content) "summary" = none →
      c6result.summary = Json.str "AI analysis completed") ∧
    (jsField (parseAIResponse c6content) "confidence" = none →
      c6result.confidence = Json.num ⟨7, 10⟩) ∧
    (jsField (parseAIResponse c6content) "recommendations" = none →
      c6result.recommendations = Json.arr []) :=
  claim_C6_merge_and_defaults_amended [sampleEntry] [] c6content [Json.obj []]
    c6result (by decide) rfl rfl

/-! ## The greedy brace span -/

theorem firstIdx_append_none (p : Char → Bool) (pre rest : List Char)
    (h : ∀ c ∈ pre, p c = false) :
    firstIdx p (pre ++ rest) = (firstIdx p rest).map (· + pre.length) := by
  induction pre with
  | nil => cases hx : firstIdx p rest <;> simp [hx]
  | cons c pre ih =>
    have hc := h c (List.mem_cons_self _ _)
    have ih2 := ih fun x hx => h x (List.mem_cons_of_mem _ hx)
    simp only [List.cons_append, firstIdx, hc, Bool.false_eq_true, if_false]
    cases hx : firstIdx p rest <;> simp [ih2, hx] <;> omega

theorem braceMatch_decomp (pre span post : List Char)
    (hpre : ∀ c ∈ pre, c ≠ '\x7b')
    (hfirst : span.head? = some '\x7b')
    (hlast : span.getLast? = some '\x7d')
    (hpost : ∀ c ∈ post, c ≠ '\x7d') :
    braceMatch (pre ++ span ++ post) = some span := by
  cases span with
  | nil => simp at hfirst
  | cons c0 span1 =>
    have hc0 : c0 = '\x7b' := by simpa using hfirst
    subst hc0
    have hspan1 : span1 ≠ [] := by
      intro h
      subst h
      simp [List.getLast?] at hlast
    have hf : firstIdx (fun c => c = '\x7b') ((pre ++ ('\x7b' :: span1)) ++ post) =
        some pre.length := by
      rw [List.append_assoc,
        firstIdx_append_none _ _ _ fun c hc => decide_eq_false (hpre c hc)]
      simp [firstIdx]
    have hlast1 : span1.getLast? = some '\x7d' := by
      cases span1 with
      | nil => exact absurd rfl hspan1
      | cons d ds => simpa [List.getLast?_cons_cons] using hlast
    have hfr : firstIdx (fun c => c = '\x7d')
        (((pre ++ ('\x7b' :: span1)) ++ post).reverse) = some post.length := by
      have h1 : span1.reverse.head? = some '\x7d' := by
        rw [List.head?_reverse]
        exact hlast1
      cases hsr : span1.reverse with
      | nil =>
        rw [hsr] at h1
        simp at h1
      | cons e es =>
        rw [hsr] at h1
        have he : e = '\x7d' := by simpa using h1
        subst he
        rw [List.reverse_append, List.reverse_append,
          firstIdx_append_none _ _ _
            fun c hc => decide_eq_false (hpost c (List.mem_reverse.mp hc))]
        simp [List.reverse_cons, hsr, firstIdx]
    have hl : lastIdx (fun c => c = '\x7d') ((pre ++ ('\x7b' :: span1)) ++ post) =
        some (pre.length + span1.length) := by
      simp only [lastIdx, hfr, Option.some.injEq]
      simp only [List.length_append, List.length_cons]
      omega
    have hlt : pre.length < pre.length + span1.length := by
      have := List.length_pos.mpr hspan1
      omega
    have htake : pre.length + span1.length + 1 - pre.length =
        ('\x7b' :: span1).length := by
      simp only [List.length_cons]
      omega
    simp only [braceMatch, hf, hl]
    rw [if_pos hlt, List.append_assoc, List.drop_left, htake, List.take_left]

/-- Counterexample to C4 as stated: on a reply holding two balanced
objects, the reconciler does not recover the first balanced object, and
its parse-failure result is not the degraded result the claim describes
(its summary and confidence differ). -/
theorem claim_C4_counterexample :
    firstBalancedJsonObject r0.data = some (Json.obj [("a", Json.num ⟨1, 1⟩)]) ∧
    parseAIResponse r0 = parseFailureFallback ∧
    parseFailureFallback ≠ Json.obj [("a", Json.num ⟨1, 1⟩)] ∧
    parseFailureFallback ≠ degradedFallback r0 :=
  ⟨rfl, rfl, fun h => absurd (congrArg confidenceNum h) (by decide),
   fun h => absurd (congrArg confidenceNum h) (by decide)⟩

/-- C4 (amended): the reconciler extracts the greedy span from the first
opening brace to the last closing brace of the reply and parses that span,
answering `parseFailureFallback` when the span is not valid JSON; the
degraded truncated-summary result arises exactly when the reply holds no
brace-delimited span at all. -/
theorem claim_C4_greedy_extraction_amended (response : String)
    (pre span post : List Char)
    (hdecomp : response.data = pre ++ span ++ post)
    (hpre : ∀ c ∈ pre, c ≠ '\x7b')
    (hfirst : span.head? = some '\x7b')
    (hlast : span.getLast? = some '\x7d')
    (hpost : ∀ c ∈ post, c ≠ '\x7d') :
    braceMatch response.data = some span ∧
    parseAIResponse response = (jsonParse span).getD parseFailureFallback ∧
    (∀ s, braceMatch s.data = none → parseAIResponse s = degradedFallback s) := by
  have hbm : braceMatch response.data = some span := by
    rw [hdecomp]
    exact braceMatch_decomp pre span post hpre hfirst hlast hpost
  refine ⟨hbm, ?_, ?_⟩
  · simp only [parseAIResponse, hbm]
    cases h : jsonParse span <;> simp [h]
  · intro s hs
    simp [parseAIResponse, hs]

/-- Witness for the amended C4: the greedy-span facts evaluated on the
two-object reply `r0`. -/
theorem claim_C4_greedy_extraction_amended_witness :
    braceMatch r0.data = some r0span ∧
    parseAIResponse r0 = (jsonParse r0span).getD parseFailureFallback ∧
    (∀ s, braceMatch s.data = none → parseAIResponse s = degradedFallback s) :=
  claim_C4_greedy_extraction_amended r0 ("x ").data r0span (" z").data
    (by decide) (by decide) rfl (by decide) (by decide)

end CyberCheck
